import Mathlib

set_option maxRecDepth 10000

/-!
# Verification of the plugin resolution and loading core

A shallow embedding of the `plugins` package of the godel build
orchestrator: plugin locators, the resolver sweep (`resolvePlugins`),
the compatibility checker (`verifyPluginCompatibility` /
`verifySinglePluginCompatibility`), the locator sort (`sortLocators`)
and the aggregator (`LoadPluginsTasks`), together with theorems about
resolution idempotence, checksum verification, error accumulation and
formatting, conflict detection and the ordering of the returned task
list.

Filesystem, network and subprocess effects are modelled by a `World`
record of oracles (file existence, fetch / unpack outcomes, the SHA-256
digest of a file, the parsed plugin info), and each operation returns
the updated world together with a trace of the externally visible
events (stat, fetch, unpack, checksum, info probe) it performed.
-/

/-- Decidable equality for `Except`, used to evaluate concrete runs. -/
instance {ε α : Type} [DecidableEq ε] [DecidableEq α] :
    DecidableEq (Except ε α) := fun x y =>
  match x, y with
  | .ok a, .ok b =>
    if h : a = b then .isTrue (by rw [h]) else .isFalse (by simp [h])
  | .error a, .error b =>
    if h : a = b then .isTrue (by rw [h]) else .isFalse (by simp [h])
  | .ok _, .error _ => .isFalse (by simp)
  | .error _, .ok _ => .isFalse (by simp)

namespace GodelPlugins

/-- The ordered pair (os, arch) identifying a build target
(`osarch.OSArch` in the source). -/
structure OSArch where
  os : String
  arch : String
deriving DecidableEq, Repr

/-- A plugin coordinate (group, product, version) (`locator` in the
source). -/
structure locator where
  Group : String
  Product : String
  Version : String
deriving DecidableEq, Repr

/-- The rendered string form of a locator, `group:product:version`
(the `String()` method of `locator`). -/
def locatorStr (l : locator) : String :=
  l.Group ++ ":" ++ l.Product ++ ":" ++ l.Version

/-- `pluginFileName` from the source: `group-product-version`. -/
def pluginFileName (l : locator) : String :=
  l.Group ++ "-" ++ l.Product ++ "-" ++ l.Version

/-- `pluginPath` from the source: the install path of a plugin under
the plugins directory (`path.Join(pluginDir, pluginFileName(locator))`). -/
def pluginPath (pluginDir : String) (loc : locator) : String :=
  pluginDir ++ "/" ++ pluginFileName loc

/-- Lexicographic (byte-wise) string comparison, the order used by
Go's `<` on strings and by `sort.Strings`, expressed on the character
data of the strings. -/
def strLe (a b : String) : Prop :=
  a.data ≤ b.data

instance : DecidableRel strLe := fun a b =>
  inferInstanceAs (Decidable (a.data ≤ b.data))

instance : IsTotal String strLe :=
  ⟨fun a b => le_total a.data b.data⟩

instance : IsTrans String strLe :=
  ⟨fun _ _ _ => le_trans⟩

/-- The comparison used by `sortLocators`:
`locs[i].String() < locs[j].String()` made non-strict for sorting. -/
def locLE (a b : locator) : Prop :=
  strLe (locatorStr a) (locatorStr b)

instance : DecidableRel locLE := fun a b =>
  inferInstanceAs (Decidable (strLe (locatorStr a) (locatorStr b)))

instance : IsTotal locator locLE :=
  ⟨fun a b => le_total (locatorStr a).data (locatorStr b).data⟩

instance : IsTrans locator locLE :=
  ⟨fun _ _ _ => le_trans⟩

/-- `sortLocators` from the source: sorts a slice of locators by their
rendered string form. -/
def sortLocators (locs : List locator) : List locator :=
  locs.insertionSort locLE

/-- Modelled from the spec: a `TaskInfo` record as emitted by the
plugin info protocol (`pluginapi.TaskInfo`, whose definition is not in
the provided sources) — a task name, the command token passed as the
first argument to invoke it, the global flag strings the task declares,
and the `verifyOptions.applyFalseArgs` tokens. -/
structure TaskInfo where
  Name : String
  Description : String
  Command : String
  DebugFlag : Option String
  ProjectDirFlag : Option String
  GodelConfigFlag : Option String
  ConfigFlag : Option String
  ApplyFalseArgs : List String
deriving DecidableEq, Repr, Inhabited

/-- Modelled from the spec: `pluginapi.Info` (not in the provided
sources) — the self-description a plugin emits: identity, config file
name and the declared tasks. -/
structure Info where
  Group : String
  Product : String
  Version : String
  ConfigFileName : String
  TaskInfos : List TaskInfo
deriving DecidableEq, Repr, Inhabited

/-- Modelled from the spec: a runnable `godellauncher.Task` descriptor
(not in the provided sources) — the user-visible name and description
plus the data the invoker needs to compose the subprocess argv. -/
structure Task where
  Name : String
  Description : String
  PluginExecPath : String
  ConfigFileName : String
  Command : String
  DebugFlag : Option String
  ProjectDirFlag : Option String
  GodelConfigFlag : Option String
  ConfigFlag : Option String
  ApplyFalseArgs : List String
deriving DecidableEq, Repr, Inhabited

/-- Modelled from the spec: `Info.Tasks(pluginExecPath)` turns each
declared `TaskInfo` into a runnable task, in declaration order. -/
def Info.Tasks (info : Info) (pluginExecPath : String) : List Task :=
  info.TaskInfos.map fun t =>
    { Name := t.Name
      Description := t.Description
      PluginExecPath := pluginExecPath
      ConfigFileName := info.ConfigFileName
      Command := t.Command
      DebugFlag := t.DebugFlag
      ProjectDirFlag := t.ProjectDirFlag
      GodelConfigFlag := t.GodelConfigFlag
      ConfigFlag := t.ConfigFlag
      ApplyFalseArgs := t.ApplyFalseArgs }

/-- A `SinglePluginParam`: the locator with its per-OSArch checksums and
the optional custom resolver template. -/
structure SinglePluginParam where
  Locator : locator
  Checksums : List (OSArch × String)
  Resolver : Option String
deriving DecidableEq, Repr

/-- `projectParams`: ordered default resolver templates plus the
ordered list of declared plugins. -/
structure projectParams where
  DefaultResolvers : List String
  Plugins : List SinglePluginParam
deriving DecidableEq, Repr

/-- Association-list insert with Go map semantics: a later assignment
to an existing key overwrites the earlier binding; a new key is
appended. -/
def insertA {α : Type} (m : List (locator × α)) (k : locator) (v : α) :
    List (locator × α) :=
  match m with
  | [] => [(k, v)]
  | kv :: rest => if kv.1 = k then (k, v) :: rest else kv :: insertA rest k v

/-- Lookup in an association list (Go map read). -/
def lookupA {α : Type} (m : List (locator × α)) (k : locator) : Option α :=
  m.lookup k

/-- `indentSpaces` from the source. -/
def indentSpaces : Nat := 4

/-- `strings.Repeat(" ", indentSpaces)`. -/
def indent : String := String.mk (List.replicate indentSpaces ' ')

/-- The externally visible effects performed during resolution: an
existence check on the install path, a fetch of the plugin archive, an
unpack of the archive into the install path, a checksum computation
over a file, and the plugin info subprocess probe. -/
inductive Event where
  | stat (path : String)
  | fetch (l : locator)
  | unpack (l : locator)
  | checksum (path : String)
  | infoProbe (path : String)
deriving DecidableEq, Repr

/-- The external world: the set of existing install files, plus oracles
for the outcome of each effectful operation the resolver delegates
(`resolvePluginTGZ`, `os.OpenFile` on the install path, `os.Open` on
the archive, `copyPluginTGZContent`, `Close`, `sha256ChecksumFile`,
`pluginapi.InfoFromPlugin`).  The oracle functions are fixed; only
`files` evolves during a run. -/
structure World where
  files : List String
  fetchTGZ : locator → Except String Unit
  openInstall : String → Except String Unit
  openTGZ : locator → Except String Unit
  copyTGZ : locator → Except String Unit
  closeInstall : String → Except String Unit
  sha256Of : String → Except String String
  infoOf : String → Except String Info

/-- Two worlds agree on every oracle (they may differ in which files
exist).  A run of the resolver never changes the oracles, only the
file set. -/
structure World.sameOracles (w w' : World) : Prop where
  fetchTGZ : w.fetchTGZ = w'.fetchTGZ
  openInstall : w.openInstall = w'.openInstall
  openTGZ : w.openTGZ = w'.openTGZ
  copyTGZ : w.copyTGZ = w'.copyTGZ
  closeInstall : w.closeInstall = w'.closeInstall
  sha256Of : w.sha256Of = w'.sha256Of
  infoOf : w.infoOf = w'.infoOf

/-- An event trace contains no fetch and no unpack for any plugin. -/
def noTransfer (evs : List Event) : Prop :=
  ∀ l : locator, Event.fetch l ∉ evs ∧ Event.unpack l ∉ evs

/-- The anonymous extraction function of `resolvePlugins` (source lines
112-132): open the install file with create+truncate semantics (the
file exists from that point on, even if the subsequent copy fails), open
the archive, copy its single entry across, and close the install file;
a close failure overrides the body's result via the deferred handler. -/
def extractPluginTGZ (w : World) (dst tgzDstPath : String) (l : locator) :
    World × Except String Unit :=
  match w.openInstall dst with
  | .error e => (w, .error ("failed to create file " ++ dst ++ ": " ++ e))
  | .ok _ =>
    let w1 : World := { w with files := dst :: w.files }
    let bodyRes : Except String Unit :=
      match w.openTGZ l with
      | .error e => .error ("failed to open " ++ tgzDstPath ++ " for reading: " ++ e)
      | .ok _ => w.copyTGZ l
    let res : Except String Unit :=
      match w.closeInstall dst with
      | .error e => .error ("failed to close file " ++ dst ++ ": " ++ e)
      | .ok _ => bodyRes
    (w1, res)

/-- The install step of `resolvePlugins` (source lines 105-136): if the
install path exists, skip fetch and unpack; otherwise fetch the archive
and extract it into the install path. -/
def installStep (pluginsDir downloadsDir : String) (w : World)
    (l : locator) : World × List Event × Except String Unit :=
  let dst := pluginPath pluginsDir l
  if w.files.contains dst then (w, [Event.stat dst], Except.ok ())
  else
    let tgzDstPath := downloadsDir ++ "/" ++ pluginFileName l ++ ".tgz"
    match w.fetchTGZ l with
    | .error e => (w, [Event.stat dst, Event.fetch l], .error e)
    | .ok _ =>
      match extractPluginTGZ w dst tgzDstPath l with
      | (w1, .error e) =>
        (w1, [Event.stat dst, Event.fetch l, Event.unpack l],
          .error ("failed to extract plugin from archive into destination: " ++ e))
      | (w1, .ok _) =>
        (w1, [Event.stat dst, Event.fetch l, Event.unpack l], .ok ())

/-- The checksum step of `resolvePlugins` (source lines 138-148): if a
checksum is configured for the current OSArch, compute the SHA-256
digest of the installed file and compare it (exact string comparison)
with the configured value.  Does not modify the world: a mismatching
file is retained. -/
def checksumStep (w : World) (dst : String)
    (checksums : List (OSArch × String)) (osArch : OSArch) :
    List Event × Except String Unit :=
  match checksums.lookup osArch with
  | none => ([], .ok ())
  | some wantChecksum =>
    match w.sha256Of dst with
    | .error e =>
      ([Event.checksum dst], .error ("failed to compute checksum for plugin: " ++ e))
    | .ok gotChecksum =>
      if gotChecksum = wantChecksum then ([Event.checksum dst], .ok ())
      else
        ([Event.checksum dst],
          .error ("failed to verify checksum for " ++ dst ++ ": want " ++
            wantChecksum ++ ", got " ++ gotChecksum))

/-- The info-probe step of `resolvePlugins` (source lines 150-154):
invoke the plugin's info command and parse the output. -/
def infoStep (w : World) (dst : String) (l : locator) :
    List Event × Except String Info :=
  match w.infoOf dst with
  | .error e =>
    ([Event.infoProbe dst],
      .error ("failed to get plugin info for plugin " ++ locatorStr l ++ ": " ++ e))
  | .ok info => ([Event.infoProbe dst], .ok info)

/-- The pure (world-preserving) tail of one sweep iteration: the
checksum verification followed by the info probe.  Reads only the
`sha256Of` and `infoOf` oracles of the world. -/
def postInstall (w : World) (dst : String) (currPlugin : SinglePluginParam)
    (osArch : OSArch) : List Event × Except String Info :=
  match checksumStep w dst currPlugin.Checksums osArch with
  | (evs2, .error e) => (evs2, .error e)
  | (evs2, .ok _) =>
    let r := infoStep w dst currPlugin.Locator
    (evs2 ++ r.1, r.2)

/-- One iteration of the `resolvePlugins` sweep (source lines 102-156):
install check + fetch/unpack, then checksum verification, then the info
probe.  Returns the updated world, the trace of performed effects and
either the plugin's info or the per-plugin error. -/
def resolveOnePlugin (pluginsDir downloadsDir : String) (osArch : OSArch)
    (w : World) (currPlugin : SinglePluginParam) :
    World × List Event × Except String Info :=
  match installStep pluginsDir downloadsDir w currPlugin.Locator with
  | (w1, evs, .error e) => (w1, evs, .error e)
  | (w1, evs, .ok _) =>
    (w1,
      evs ++ (postInstall w1 (pluginPath pluginsDir currPlugin.Locator)
        currPlugin osArch).1,
      (postInstall w1 (pluginPath pluginsDir currPlugin.Locator)
        currPlugin osArch).2)

/-- The accumulating state of the `resolvePlugins` sweep: the evolving
world, the effect trace, the map of resolved plugins and the map of
per-plugin errors. -/
structure LoopState where
  w : World
  evs : List Event
  plugins : List (locator × Info)
  pluginErrors : List (locator × String)

/-- One step of the sweep: record the plugin's info on success, its
error on failure, and accumulate the effect trace. -/
def resolveStep (pluginsDir downloadsDir : String) (osArch : OSArch)
    (st : LoopState) (currPlugin : SinglePluginParam) : LoopState :=
  match resolveOnePlugin pluginsDir downloadsDir osArch st.w currPlugin with
  | (w1, evs, .error e) =>
    { w := w1
      evs := st.evs ++ evs
      plugins := st.plugins
      pluginErrors := insertA st.pluginErrors currPlugin.Locator e }
  | (w1, evs, .ok info) =>
    { w := w1
      evs := st.evs ++ evs
      plugins := insertA st.plugins currPlugin.Locator info
      pluginErrors := st.pluginErrors }

/-- The summary error produced when the sweep accumulated errors
(source lines 162-177): `failed to resolve N plugin(s):` followed by
each failing plugin's error, joined by a newline plus four spaces of
indentation, in locator order. -/
def resolveSummaryError (pluginErrors : List (locator × String)) : String :=
  let sortedKeys := sortLocators (pluginErrors.map Prod.fst)
  let n := pluginErrors.length
  let pluginOrPlugins := if n = 1 then "plugin" else "plugins"
  let errStringsParts :=
    ("failed to resolve " ++ toString n ++ " " ++ pluginOrPlugins ++ ":")
      :: sortedKeys.map (fun k => (lookupA pluginErrors k).getD "")
  String.intercalate ("\n" ++ indent) errStringsParts

/-- The full sweep of `resolvePlugins` over the declared plugins, in
declaration order, from the initial world with empty accumulators. -/
def resolveSweep (pluginsDir downloadsDir : String) (osArch : OSArch)
    (param : projectParams) (w : World) : LoopState :=
  param.Plugins.foldl (resolveStep pluginsDir downloadsDir osArch)
    ⟨w, [], [], []⟩

/-- `resolvePlugins` from the source: sweep all declared plugins in
declaration order, accumulating per-plugin errors rather than
short-circuiting; if any errors accumulated return the summary error,
otherwise the map of resolved plugin infos. -/
def resolvePlugins (pluginsDir downloadsDir : String) (osArch : OSArch)
    (param : projectParams) (w : World) :
    World × List Event × Except String (List (locator × Info)) :=
  let st := resolveSweep pluginsDir downloadsDir osArch param w
  if st.pluginErrors.isEmpty then (st.w, st.evs, .ok st.plugins)
  else (st.w, st.evs, .error (resolveSummaryError st.pluginErrors))

/-- A conflict recorded by the compatibility checker: either two
versions of the same plugin, or a non-empty list of shared task
names. -/
inductive ConflictErr where
  | differentVersion : ConflictErr
  | conflictingTasks (names : List String) : ConflictErr
deriving DecidableEq, Repr

/-- The rendered message of a conflict, as formatted by the source
(`fmt.Errorf`; `%v` renders a string slice as the names separated by
single spaces inside square brackets). -/
def ConflictErr.message : ConflictErr → String
  | .differentVersion => "different version of the same plugin"
  | .conflictingTasks names =>
    "provides conflicting tasks: [" ++ String.intercalate " " names ++ "]"

/-- `sort.Strings` from the Go standard library. -/
def sortStrings (xs : List String) : List String :=
  xs.insertionSort strLe

/-- The sorted task names of `plugin` shared with the task names of
`otherPluginInfo` (the `commonTasks` computation of
`verifySinglePluginCompatibility`, source lines 233-251). -/
def commonTasks (plugin : locator) (plugins : List (locator × Info))
    (otherPluginInfo : Info) : List String :=
  let currPluginInfo := (lookupA plugins plugin).getD default
  let currPluginTasks := sortStrings (currPluginInfo.TaskInfos.map TaskInfo.Name)
  let otherPluginTasks := otherPluginInfo.TaskInfos.map TaskInfo.Name
  currPluginTasks.filter fun t => otherPluginTasks.contains t

/-- The loop body of `verifySinglePluginCompatibility` (source lines
224-256): skip the plugin itself; a shared (group, product) records a
"different version" conflict; otherwise a non-empty task-name
intersection records a "conflicting tasks" conflict. -/
def vsBody (plugin : locator) (plugins : List (locator × Info))
    (errs : List (locator × ConflictErr)) (other : locator × Info) :
    List (locator × ConflictErr) :=
  let otherPlugin := other.1
  let otherPluginInfo := other.2
  if otherPlugin = plugin then errs
  else if otherPlugin.Group = plugin.Group ∧ otherPlugin.Product = plugin.Product then
    insertA errs otherPlugin ConflictErr.differentVersion
  else
    let common := commonTasks plugin plugins otherPluginInfo
    if common.isEmpty then errs
    else insertA errs otherPlugin (ConflictErr.conflictingTasks common)

/-- `verifySinglePluginCompatibility` from the source: the conflicts of
`plugin` against every other plugin of the resolved set. -/
def verifySinglePluginCompatibility (plugin : locator)
    (plugins : List (locator × Info)) : List (locator × ConflictErr) :=
  plugins.foldl (vsBody plugin plugins) []

/-- The conflict the loop body of `verifySinglePluginCompatibility`
records for one other plugin considered in isolation, `none` when the
pair does not conflict. -/
def pairConflict (plugin : locator) (plugins : List (locator × Info))
    (otherPlugin : locator) (otherPluginInfo : Info) : Option ConflictErr :=
  if otherPlugin = plugin then none
  else if otherPlugin.Group = plugin.Group ∧ otherPlugin.Product = plugin.Product then
    some ConflictErr.differentVersion
  else
    let common := commonTasks plugin plugins otherPluginInfo
    if common.isEmpty then none
    else some (ConflictErr.conflictingTasks common)

/-- The conflicts map built by `verifyPluginCompatibility` (source
lines 186-193): each plugin with a non-empty conflict list, keyed by
its locator. -/
def conflictsMap (plugins : List (locator × Info)) :
    List (locator × List (locator × ConflictErr)) :=
  plugins.foldl
    (fun conflicts curr =>
      let currConflicts := verifySinglePluginCompatibility curr.1 plugins
      if currConflicts.isEmpty then conflicts
      else insertA conflicts curr.1 currConflicts)
    []

/-- The rendered compatibility error (source lines 199-219): the count
header, then for each conflicting plugin in locator order an indented
locator line followed by its conflicts in locator order, doubly
indented. -/
def compatErrString (conflicts : List (locator × List (locator × ConflictErr))) :
    String :=
  (sortLocators (conflicts.map Prod.fst)).foldl
    (fun errString k =>
      (sortLocators (((lookupA conflicts k).getD []).map Prod.fst)).foldl
        (fun s innerK =>
          s ++ ("\n" ++ indent ++ indent ++
            ((lookupA ((lookupA conflicts k).getD []) innerK).elim ""
              ConflictErr.message)))
        (errString ++ ("\n" ++ indent ++ locatorStr k ++ ":")))
    (toString conflicts.length ++ " plugins had compatibility issues:")

/-- `verifyPluginCompatibility` from the source: `none` when the
resolved set is conflict-free, otherwise the rendered deterministic
error. -/
def verifyPluginCompatibility (plugins : List (locator × Info)) :
    Option String :=
  let conflicts := conflictsMap plugins
  if conflicts.isEmpty then none
  else some (compatErrString conflicts)

/-- `LoadPluginsTasks` from the source, after configuration parsing and
home-directory creation (which are outside the provided sources):
resolve all plugins, verify compatibility, and return the tasks of the
resolved plugins concatenated in sorted locator order. -/
def LoadPluginsTasks (pluginsDir downloadsDir : String) (osArch : OSArch)
    (param : projectParams) (w : World) :
    World × List Event × Except String (List Task) :=
  match resolvePlugins pluginsDir downloadsDir osArch param w with
  | (w1, evs, .error e) => (w1, evs, .error e)
  | (w1, evs, .ok plugins) =>
    match verifyPluginCompatibility plugins with
    | some e => (w1, evs, .error e)
    | none =>
      let sortedLocs := sortLocators (plugins.map Prod.fst)
      (w1, evs, .ok (sortedLocs.flatMap fun loc =>
        ((lookupA plugins loc).getD default).Tasks (pluginPath pluginsDir loc)))

/-- Modelled from the spec (section 4.8): the global-flag portion of a
task invocation's argv — for each recognized global flag convention the
task declared, the declared flag string and its value; the debug flag
is a lone flag emitted only when debug is active. -/
def globalFlagArgs (t : Task) (projectDir : String) (debug : Bool) :
    List String :=
  (if debug then t.DebugFlag.elim [] (fun f => [f]) else [])
    ++ t.ProjectDirFlag.elim [] (fun f => [f, projectDir])
    ++ t.GodelConfigFlag.elim [] (fun f => [f, projectDir ++ "/godel/config/godel.yml"])
    ++ t.ConfigFlag.elim [] (fun f => [f, projectDir ++ "/godel/config/" ++ t.ConfigFileName])

/-- Modelled from the spec (section 4.8, validated against the
integration test's expected outputs): the argv passed to the plugin
subprocess after the executable path — global flag arguments, then the
task's command, then the user's tail arguments, except in verify mode
where no user tail is passed and `applyFalseArgs` is appended exactly
when apply=false. -/
def taskArgv (t : Task) (projectDir : String)
    (debug verifyMode applyTrue : Bool) (tailArgs : List String) :
    List String :=
  globalFlagArgs t projectDir debug ++ [t.Command] ++
    (if verifyMode then (if applyTrue then [] else t.ApplyFalseArgs)
     else tailArgs)

/-! ## Concrete fixtures used by witnesses and counterexamples -/

/-- The current OSArch used by the concrete scenarios. -/
def osLinux : OSArch := ⟨"linux", "amd64"⟩

/-- A task named `lint` declaring the standard global flags and a
`--verify` apply-false token. -/
def taskLint : TaskInfo :=
  { Name := "lint"
    Description := "Lints the project"
    Command := "run-lint"
    DebugFlag := some "--debug"
    ProjectDirFlag := some "--project-dir"
    GodelConfigFlag := some "--godel-config"
    ConfigFlag := some "--config"
    ApplyFalseArgs := ["--verify"] }

/-- A task named `echo-task`, matching the integration test's plugin. -/
def taskEcho : TaskInfo :=
  { Name := "echo-task"
    Description := "Echoes input"
    Command := "echo"
    DebugFlag := none
    ProjectDirFlag := some "--project-dir"
    GodelConfigFlag := some "--godel-config"
    ConfigFlag := some "--config"
    ApplyFalseArgs := ["--verify"] }

/-- Locator of plugin a, version 1.0.0. -/
def locA : locator := ⟨"com.palantir", "a", "1.0.0"⟩

/-- Locator of plugin a, version 2.0.0. -/
def locA2 : locator := ⟨"com.palantir", "a", "2.0.0"⟩

/-- Locator of plugin b, version 1.0.0. -/
def locB : locator := ⟨"com.palantir", "b", "1.0.0"⟩

/-- Info of plugin a: provides the `lint` task. -/
def infoA : Info := ⟨"com.palantir", "a", "1.0.0", "a.yml", [taskLint]⟩

/-- Info of plugin a version 2.0.0: also provides the `lint` task. -/
def infoA2 : Info := ⟨"com.palantir", "a", "2.0.0", "a.yml", [taskLint]⟩

/-- Info of plugin b: also provides a task named `lint`. -/
def infoB : Info := ⟨"com.palantir", "b", "1.0.0", "b.yml", [taskLint]⟩

/-- A world in which every operation succeeds, nothing is installed
yet, every file hashes to "ab", and every info probe returns the info
for plugin a. -/
def worldOK : World :=
  { files := []
    fetchTGZ := fun _ => .ok ()
    openInstall := fun _ => .ok ()
    openTGZ := fun _ => .ok ()
    copyTGZ := fun _ => .ok ()
    closeInstall := fun _ => .ok ()
    sha256Of := fun _ => .ok "ab"
    infoOf := fun _ => .ok infoA }

/-- Project params declaring just plugin a, with no checksums. -/
def paramA : projectParams := ⟨[], [⟨locA, [], none⟩]⟩

/-- Project params declaring just plugin a, with a lowercase checksum
for the current OSArch that matches `worldOK`'s digest. -/
def paramAck : projectParams := ⟨[], [⟨locA, [(osLinux, "ab")], none⟩]⟩

/-- Project params declaring just plugin a, with an uppercase checksum
for the current OSArch (the digest of the file, but upper-cased). -/
def paramAckUpper : projectParams := ⟨[], [⟨locA, [(osLinux, "AB")], none⟩]⟩

/-- A world like `worldOK` whose info probe answers with plugin b's
info at plugin b's install path and with plugin a's info elsewhere. -/
def worldAB : World :=
  { files := []
    fetchTGZ := fun _ => .ok ()
    openInstall := fun _ => .ok ()
    openTGZ := fun _ => .ok ()
    copyTGZ := fun _ => .ok ()
    closeInstall := fun _ => .ok ()
    sha256Of := fun _ => .ok "ab"
    infoOf := fun p =>
      if p = "/p/com.palantir-b-1.0.0" then .ok infoB else .ok infoA }

/-- Project params declaring plugins a and b, with no checksums. -/
def paramAB : projectParams := ⟨[], [⟨locA, [], none⟩, ⟨locB, [], none⟩]⟩

/-- A world like `worldOK` in which every fetch fails. -/
def worldFetchFail : World :=
  { worldOK with fetchTGZ := fun _ => .error "no resolver could retrieve it" }

/-- A world like `worldOK` in which the copy out of the archive fails
partway. -/
def worldCopyFail : World :=
  { worldOK with copyTGZ := fun _ => .error "archive is corrupt" }

/-- A world like `worldOK` in which plugin a is already installed. -/
def worldInstalled : World :=
  { worldOK with files := ["/p/com.palantir-a-1.0.0"] }

/-- Plugin a configured with the uppercase checksum "AB" for the
current OSArch. -/
def pAUpper : SinglePluginParam := ⟨locA, [(osLinux, "AB")], none⟩

/-- The integration test's plugin info: one `echo-task` task reading
config file `echo.yml`. -/
def infoEcho : Info := ⟨"com.palantir", "tester", "1.0.0", "echo.yml", [taskEcho]⟩

/-! ## Helper lemmas: strings, sorting, association lists -/

theorem stringJoin_nil : String.join [] = "" := rfl

theorem stringJoin_cons (y : String) (ys : List String) :
    String.join (y :: ys) = y ++ String.join ys := by
  have main : ∀ (zs : List String) (a : String),
      zs.foldl (fun r s => r ++ s) a = a ++ String.join zs := by
    intro zs
    induction zs with
    | nil => intro a; simp [String.join]
    | cons z zs ih =>
      intro a
      have hz : String.join (z :: zs) = z ++ String.join zs := by
        show List.foldl (fun r s => r ++ s) "" (z :: zs) = _
        rw [List.foldl_cons, String.empty_append, ih z]
      show List.foldl (fun r s => r ++ s) a (z :: zs) = _
      rw [List.foldl_cons, ih (a ++ z), hz, String.append_assoc]
  show List.foldl (fun r s => r ++ s) "" (y :: ys) = _
  rw [List.foldl_cons, String.empty_append, main ys y]

theorem strFoldlAppend {β : Type} (g : β → String) (xs : List β) (a : String) :
    xs.foldl (fun s x => s ++ g x) a = a ++ String.join (xs.map g) := by
  induction xs generalizing a with
  | nil => simp [String.join]
  | cons y ys ih =>
    rw [List.foldl_cons, List.map_cons, stringJoin_cons, ih (a ++ g y),
      String.append_assoc]

theorem intercalate_go_eq (sep : String) (xs : List String) (acc : String) :
    String.intercalate.go acc sep xs =
      acc ++ String.join (xs.map fun s => sep ++ s) := by
  induction xs generalizing acc with
  | nil => simp [String.intercalate.go, String.join]
  | cons y ys ih =>
    rw [String.intercalate.go, ih, List.map_cons, stringJoin_cons]
    simp [String.append_assoc]

theorem intercalate_cons (sep x : String) (xs : List String) :
    String.intercalate sep (x :: xs) =
      x ++ String.join (xs.map fun s => sep ++ s) := by
  show String.intercalate.go x sep xs = _
  exact intercalate_go_eq sep xs x

theorem sortLocators_perm (locs : List locator) :
    (sortLocators locs).Perm locs :=
  List.perm_insertionSort locLE locs

theorem sortLocators_sorted (locs : List locator) :
    (sortLocators locs).Sorted locLE :=
  List.sorted_insertionSort locLE locs

theorem sortStrings_perm (xs : List String) : (sortStrings xs).Perm xs :=
  List.perm_insertionSort strLe xs

theorem sortStrings_sorted (xs : List String) :
    (sortStrings xs).Sorted strLe :=
  List.sorted_insertionSort strLe xs

theorem mem_sortStrings {x : String} {xs : List String} :
    x ∈ sortStrings xs ↔ x ∈ xs :=
  List.mem_insertionSort strLe

theorem insertA_cons_self {α : Type} (hd : locator × α)
    (tl : List (locator × α)) (v : α) :
    insertA (hd :: tl) hd.1 v = (hd.1, v) :: tl := by
  simp [insertA]

theorem insertA_cons_ne {α : Type} (hd : locator × α)
    (tl : List (locator × α)) (k : locator) (v : α) (h : hd.1 ≠ k) :
    insertA (hd :: tl) k v = hd :: insertA tl k v := by
  simp [insertA, h]

theorem lookupA_insertA_self {α : Type} (m : List (locator × α))
    (k : locator) (v : α) : lookupA (insertA m k v) k = some v := by
  induction m with
  | nil => simp [insertA, lookupA, List.lookup]
  | cons hd tl ih =>
    by_cases h : hd.1 = k
    · subst h
      rw [insertA_cons_self]
      simp [lookupA, List.lookup]
    · rw [insertA_cons_ne hd tl k v h]
      have hb : (k == hd.1) = false :=
        beq_eq_false_iff_ne.mpr fun e => h e.symm
      simpa [lookupA, List.lookup, hb] using ih

theorem lookupA_insertA_ne {α : Type} (m : List (locator × α))
    (k k' : locator) (v : α) (h : k' ≠ k) :
    lookupA (insertA m k v) k' = lookupA m k' := by
  have hb : (k' == k) = false := beq_eq_false_iff_ne.mpr h
  induction m with
  | nil => simp [insertA, lookupA, List.lookup, hb]
  | cons hd tl ih =>
    by_cases hh : hd.1 = k
    · subst hh
      rw [insertA_cons_self]
      simp [lookupA, List.lookup, hb]
    · rw [insertA_cons_ne hd tl k v hh]
      by_cases hk : k' = hd.1
      · have hb2 : (k' == hd.1) = true := by simp [hk]
        simp [lookupA, List.lookup, hb2]
      · have hb2 : (k' == hd.1) = false := beq_eq_false_iff_ne.mpr hk
        simpa [lookupA, List.lookup, hb2] using ih

theorem insertA_ne_nil {α : Type} (m : List (locator × α)) (k : locator)
    (v : α) : insertA m k v ≠ [] := by
  cases m with
  | nil => simp [insertA]
  | cons hd tl =>
    by_cases h : hd.1 = k
    · subst h
      rw [insertA_cons_self]
      simp
    · rw [insertA_cons_ne hd tl k v h]
      simp

theorem keys_insertA_of_mem {α : Type} {m : List (locator × α)}
    {k' : locator} (k : locator) (v : α) (h : k' ∈ m.map Prod.fst) :
    k' ∈ (insertA m k v).map Prod.fst := by
  induction m with
  | nil => simp at h
  | cons hd tl ih =>
    simp only [List.map_cons, List.mem_cons] at h
    by_cases hh : hd.1 = k
    · subst hh
      rw [insertA_cons_self]
      simp only [List.map_cons, List.mem_cons]
      exact h
    · rw [insertA_cons_ne hd tl k v hh]
      simp only [List.map_cons, List.mem_cons]
      rcases h with h | h
      · exact Or.inl h
      · exact Or.inr (ih h)

theorem self_mem_keys_insertA {α : Type} (m : List (locator × α))
    (k : locator) (v : α) : k ∈ (insertA m k v).map Prod.fst := by
  induction m with
  | nil => simp [insertA]
  | cons hd tl ih =>
    by_cases hh : hd.1 = k
    · subst hh
      rw [insertA_cons_self]
      simp
    · rw [insertA_cons_ne hd tl k v hh]
      simp only [List.map_cons, List.mem_cons]
      exact Or.inr ih

theorem mem_insertA_elim {α : Type} {m : List (locator × α)}
    {k : locator} {v : α} {x : locator × α} (h : x ∈ insertA m k v) :
    x ∈ m ∨ x = (k, v) := by
  induction m with
  | nil => simp [insertA] at h; exact Or.inr h
  | cons hd tl ih =>
    by_cases hh : hd.1 = k
    · subst hh
      rw [insertA_cons_self] at h
      rcases List.mem_cons.mp h with h | h
      · exact Or.inr h
      · exact Or.inl (List.mem_cons.mpr (Or.inr h))
    · rw [insertA_cons_ne hd tl k v hh] at h
      rcases List.mem_cons.mp h with h | h
      · exact Or.inl (List.mem_cons.mpr (Or.inl h))
      · rcases ih h with h | h
        · exact Or.inl (List.mem_cons.mpr (Or.inr h))
        · exact Or.inr h

theorem lookupA_eq_some_of_nodup {α : Type} {m : List (locator × α)}
    {k : locator} {v : α} (hnd : (m.map Prod.fst).Nodup) (h : (k, v) ∈ m) :
    lookupA m k = some v := by
  induction m with
  | nil => simp at h
  | cons hd tl ih =>
    simp only [List.map_cons, List.nodup_cons] at hnd
    rcases List.mem_cons.mp h with heq | hmem
    · rw [← heq]
      simp [lookupA, List.lookup]
    · have hne : k ≠ hd.1 := fun e =>
        hnd.1 (e ▸ List.mem_map.mpr ⟨(k, v), hmem, rfl⟩)
      have hb : (k == hd.1) = false := beq_eq_false_iff_ne.mpr hne
      simpa [lookupA, List.lookup, hb] using ih hnd.2 hmem

/-! ## Characterization of the compatibility checker -/

theorem vsBody_eq_pairConflict (plugin : locator)
    (plugins : List (locator × Info)) (errs : List (locator × ConflictErr))
    (other : locator × Info) :
    vsBody plugin plugins errs other =
      match pairConflict plugin plugins other.1 other.2 with
      | none => errs
      | some c => insertA errs other.1 c := by
  unfold vsBody pairConflict
  by_cases h1 : other.1 = plugin
  · simp [h1]
  · by_cases h2 : other.1.Group = plugin.Group ∧ other.1.Product = plugin.Product
    · simp [h1, h2]
    · by_cases h3 : (commonTasks plugin plugins other.2).isEmpty
      · simp [h1, h2, h3]
      · simp [h1, h2, h3]

theorem lookupA_vsFold_not_mem (plugin : locator)
    (plugins : List (locator × Info)) (Q : locator) :
    ∀ (ps : List (locator × Info)) (errs : List (locator × ConflictErr)),
      Q ∉ ps.map Prod.fst →
      lookupA (ps.foldl (vsBody plugin plugins) errs) Q = lookupA errs Q := by
  intro ps
  induction ps with
  | nil => intro errs _; rfl
  | cons hd tl ih =>
    intro errs h
    simp only [List.map_cons, List.mem_cons, not_or] at h
    rw [List.foldl_cons, ih _ h.2, vsBody_eq_pairConflict]
    cases pairConflict plugin plugins hd.1 hd.2 with
    | none => rfl
    | some c => exact lookupA_insertA_ne _ _ _ _ h.1

theorem lookupA_vsFold_mem (plugin : locator)
    (plugins : List (locator × Info)) (Q : locator) (infoQ : Info) :
    ∀ (ps : List (locator × Info)) (errs : List (locator × ConflictErr)),
      (ps.map Prod.fst).Nodup → (Q, infoQ) ∈ ps →
      lookupA errs Q = none →
      lookupA (ps.foldl (vsBody plugin plugins) errs) Q =
        pairConflict plugin plugins Q infoQ := by
  intro ps
  induction ps with
  | nil => intro errs _ h _; simp at h
  | cons hd tl ih =>
    intro errs hnd hmem hnone
    simp only [List.map_cons, List.nodup_cons] at hnd
    rw [List.foldl_cons]
    rcases List.mem_cons.mp hmem with heq | hmem2
    · have hk : hd.1 = Q := by rw [← heq]
      have hQ : Q ∉ tl.map Prod.fst := hk ▸ hnd.1
      rw [lookupA_vsFold_not_mem plugin plugins Q tl _ hQ,
        vsBody_eq_pairConflict]
      have hhd : (hd.1, hd.2) = (Q, infoQ) := by rw [← heq]
      have h1 : hd.1 = Q := congrArg Prod.fst hhd
      have h2 : hd.2 = infoQ := congrArg Prod.snd hhd
      rw [h1, h2]
      cases hpc : pairConflict plugin plugins Q infoQ with
      | none => exact hnone
      | some c => exact lookupA_insertA_self _ _ _
    · have hQk : Q ∈ tl.map Prod.fst :=
        List.mem_map.mpr ⟨(Q, infoQ), hmem2, rfl⟩
      have hne : Q ≠ hd.1 := fun e => hnd.1 (e ▸ hQk)
      apply ih _ hnd.2 hmem2
      rw [vsBody_eq_pairConflict]
      cases pairConflict plugin plugins hd.1 hd.2 with
      | none => exact hnone
      | some c => rw [lookupA_insertA_ne _ _ _ _ hne]; exact hnone

theorem lookupA_verifySingle (plugin : locator)
    (plugins : List (locator × Info)) (Q : locator) (infoQ : Info)
    (hnd : (plugins.map Prod.fst).Nodup) (hQ : (Q, infoQ) ∈ plugins) :
    lookupA (verifySinglePluginCompatibility plugin plugins) Q =
      pairConflict plugin plugins Q infoQ :=
  lookupA_vsFold_mem plugin plugins Q infoQ plugins [] hnd hQ rfl

theorem mem_commonTasks {plugin : locator} {plugins : List (locator × Info)}
    {infoP : Info} (hP : lookupA plugins plugin = some infoP)
    (otherInfo : Info) (t : String) :
    t ∈ commonTasks plugin plugins otherInfo ↔
      t ∈ infoP.TaskInfos.map TaskInfo.Name ∧
        t ∈ otherInfo.TaskInfos.map TaskInfo.Name := by
  unfold commonTasks
  rw [hP]
  simp [List.mem_filter, mem_sortStrings, List.contains, List.elem_eq_mem]

theorem isEmpty_eq_false_of_mem {α : Type} {l : List α} {a : α}
    (h : a ∈ l) : l.isEmpty = false := by
  cases l with
  | nil => cases h
  | cons x xs => rfl

theorem pairConflict_conflictingTasks_inv {plugin Q : locator}
    {plugins : List (locator × Info)} {infoQ : Info} {ns : List String}
    (h : pairConflict plugin plugins Q infoQ =
      some (ConflictErr.conflictingTasks ns)) :
    Q ≠ plugin ∧ ¬(Q.Group = plugin.Group ∧ Q.Product = plugin.Product) ∧
      ns = commonTasks plugin plugins infoQ ∧ ns ≠ [] := by
  simp only [pairConflict] at h
  by_cases h1 : Q = plugin
  · rw [if_pos h1] at h
    cases h
  · rw [if_neg h1] at h
    by_cases h2 : Q.Group = plugin.Group ∧ Q.Product = plugin.Product
    · rw [if_pos h2] at h
      simp at h
    · rw [if_neg h2] at h
      by_cases h3 : (commonTasks plugin plugins infoQ).isEmpty
      · rw [if_pos h3] at h
        cases h
      · rw [if_neg h3] at h
        simp only [Option.some.injEq, ConflictErr.conflictingTasks.injEq] at h
        refine ⟨h1, h2, h.symm, ?_⟩
        intro hnil
        rw [hnil] at h
        rw [h] at h3
        exact h3 rfl

/-- C10: for a pair of resolved plugins sharing (group, product), the
compatibility checker records only the "different version of the same
plugin" conflict for that pair; a "provides conflicting tasks" conflict
is never recorded for it, even when the two plugins declare
identically named tasks (no hypothesis restricts their task sets). -/
theorem shared_identity_only_version_conflict
    (plugins : List (locator × Info)) (P Q : locator) (infoQ : Info)
    (hnd : (plugins.map Prod.fst).Nodup) (hQ : (Q, infoQ) ∈ plugins)
    (hne : Q ≠ P) (hg : Q.Group = P.Group) (hp : Q.Product = P.Product) :
    lookupA (verifySinglePluginCompatibility P plugins) Q =
        some ConflictErr.differentVersion ∧
      ∀ ns, lookupA (verifySinglePluginCompatibility P plugins) Q ≠
        some (ConflictErr.conflictingTasks ns) := by
  have h := lookupA_verifySingle P plugins Q infoQ hnd hQ
  have hpc : pairConflict P plugins Q infoQ =
      some ConflictErr.differentVersion := by
    simp only [pairConflict]
    rw [if_neg hne, if_pos ⟨hg, hp⟩]
  refine ⟨h.trans hpc, ?_⟩
  intro ns hcontra
  rw [h, hpc] at hcontra
  simp at hcontra

/-- Witness for C10: two versions of plugin a, both declaring a task
named `lint`; the recorded conflict is the version conflict, never the
task conflict. -/
theorem shared_identity_only_version_conflict_witness :
    lookupA (verifySinglePluginCompatibility locA
        [(locA, infoA), (locA2, infoA2)]) locA2 =
      some ConflictErr.differentVersion ∧
    ∀ ns, lookupA (verifySinglePluginCompatibility locA
        [(locA, infoA), (locA2, infoA2)]) locA2 ≠
      some (ConflictErr.conflictingTasks ns) :=
  shared_identity_only_version_conflict [(locA, infoA), (locA2, infoA2)]
    locA locA2 infoA2 (by decide) (by decide) (by decide) (by decide)
    (by decide)

/-- C6: conflict reporting is symmetric.  If P conflicts with Q (shared
(group, product), or a shared task name), both P's and Q's conflict
lists mention the other plugin; and whenever P's list reports a task
conflict with Q containing task name t, Q's list reports a task
conflict with P containing the same t. -/
theorem conflict_reporting_symmetric
    (plugins : List (locator × Info)) (P Q : locator) (infoP infoQ : Info)
    (hnd : (plugins.map Prod.fst).Nodup)
    (hP : (P, infoP) ∈ plugins) (hQ : (Q, infoQ) ∈ plugins) (hne : P ≠ Q)
    (hconf : (Q.Group = P.Group ∧ Q.Product = P.Product) ∨
      ∃ t, t ∈ infoP.TaskInfos.map TaskInfo.Name ∧
        t ∈ infoQ.TaskInfos.map TaskInfo.Name) :
    (lookupA (verifySinglePluginCompatibility P plugins) Q).isSome ∧
    (lookupA (verifySinglePluginCompatibility Q plugins) P).isSome ∧
    ∀ t ns, lookupA (verifySinglePluginCompatibility P plugins) Q =
        some (ConflictErr.conflictingTasks ns) → t ∈ ns →
      ∃ ns2, lookupA (verifySinglePluginCompatibility Q plugins) P =
          some (ConflictErr.conflictingTasks ns2) ∧ t ∈ ns2 := by
  have hPl : lookupA plugins P = some infoP := lookupA_eq_some_of_nodup hnd hP
  have hQl : lookupA plugins Q = some infoQ := lookupA_eq_some_of_nodup hnd hQ
  have hcharPQ := lookupA_verifySingle P plugins Q infoQ hnd hQ
  have hcharQP := lookupA_verifySingle Q plugins P infoP hnd hP
  refine ⟨?_, ?_, ?_⟩
  · rw [hcharPQ]
    simp only [pairConflict]
    rw [if_neg (fun e => hne e.symm)]
    by_cases h2 : Q.Group = P.Group ∧ Q.Product = P.Product
    · rw [if_pos h2]
      rfl
    · rw [if_neg h2]
      rcases hconf with hgp | ⟨t, htP, htQ⟩
      · exact absurd hgp h2
      · have ht : t ∈ commonTasks P plugins infoQ :=
          (mem_commonTasks hPl infoQ t).mpr ⟨htP, htQ⟩
        simp [isEmpty_eq_false_of_mem ht]
  · rw [hcharQP]
    simp only [pairConflict]
    rw [if_neg hne]
    by_cases h2 : P.Group = Q.Group ∧ P.Product = Q.Product
    · rw [if_pos h2]
      rfl
    · rw [if_neg h2]
      rcases hconf with hgp | ⟨t, htP, htQ⟩
      · exact absurd ⟨hgp.1.symm, hgp.2.symm⟩ h2
      · have ht : t ∈ commonTasks Q plugins infoP :=
          (mem_commonTasks hQl infoP t).mpr ⟨htQ, htP⟩
        simp [isEmpty_eq_false_of_mem ht]
  · intro t ns hPQ ht
    have hpc : pairConflict P plugins Q infoQ =
        some (ConflictErr.conflictingTasks ns) := hcharPQ.symm.trans hPQ
    obtain ⟨_, hgp_ne, hns, _⟩ := pairConflict_conflictingTasks_inv hpc
    rw [hns] at ht
    have hmem := (mem_commonTasks hPl infoQ t).mp ht
    have hgp_ne2 : ¬(P.Group = Q.Group ∧ P.Product = Q.Product) :=
      fun hc => hgp_ne ⟨hc.1.symm, hc.2.symm⟩
    have htQP : t ∈ commonTasks Q plugins infoP :=
      (mem_commonTasks hQl infoP t).mpr ⟨hmem.2, hmem.1⟩
    refine ⟨commonTasks Q plugins infoP, ?_, htQP⟩
    rw [hcharQP]
    simp only [pairConflict]
    rw [if_neg hne, if_neg hgp_ne2]
    simp [isEmpty_eq_false_of_mem htQP]

theorem foldl_str_eq_join {β : Type} (f : String → β → String)
    (g : β → String) (hf : ∀ s x, f s x = s ++ g x) (xs : List β)
    (a : String) : xs.foldl f a = a ++ String.join (xs.map g) := by
  induction xs generalizing a with
  | nil => simp [String.join]
  | cons y ys ih =>
    rw [List.foldl_cons, hf, ih, List.map_cons, stringJoin_cons,
      String.append_assoc]

theorem compatErrString_eq
    (conflicts : List (locator × List (locator × ConflictErr))) :
    compatErrString conflicts =
      toString conflicts.length ++ " plugins had compatibility issues:" ++
        String.join ((sortLocators (conflicts.map Prod.fst)).map fun k =>
          ("\n" ++ indent ++ locatorStr k ++ ":") ++
            String.join
              ((sortLocators (((lookupA conflicts k).getD []).map Prod.fst)).map
                fun innerK => "\n" ++ indent ++ indent ++
                  ((lookupA ((lookupA conflicts k).getD []) innerK).elim ""
                    ConflictErr.message))) := by
  unfold compatErrString
  exact foldl_str_eq_join _
    (fun k => ("\n" ++ indent ++ locatorStr k ++ ":") ++
      String.join
        ((sortLocators (((lookupA conflicts k).getD []).map Prod.fst)).map
          fun innerK => "\n" ++ indent ++ indent ++
            ((lookupA ((lookupA conflicts k).getD []) innerK).elim ""
              ConflictErr.message)))
    (fun s k =>
      (foldl_str_eq_join _ _ (fun _ _ => rfl) _ _).trans
        (String.append_assoc _ _ _))
    _ _

theorem verify_eq_some (plugins : List (locator × Info))
    (h : conflictsMap plugins ≠ []) :
    verifyPluginCompatibility plugins =
      some (compatErrString (conflictsMap plugins)) := by
  unfold verifyPluginCompatibility
  cases hc : conflictsMap plugins with
  | nil => exact absurd hc h
  | cons x xs => rfl

theorem sorted_commonTasks (plugin : locator)
    (plugins : List (locator × Info)) (info : Info) :
    (commonTasks plugin plugins info).Sorted strLe :=
  (sortStrings_sorted _).filter _

theorem pairConflict_value_prop {plugin Q : locator}
    {plugins : List (locator × Info)} {infoQ : Info} {c : ConflictErr}
    (h : pairConflict plugin plugins Q infoQ = some c) :
    c = ConflictErr.differentVersion ∨
      ∃ ns, c = ConflictErr.conflictingTasks ns ∧ ns.Sorted strLe ∧
        ns ≠ [] := by
  cases c with
  | differentVersion => exact Or.inl rfl
  | conflictingTasks ns =>
    obtain ⟨-, -, hns, hne⟩ := pairConflict_conflictingTasks_inv h
    exact Or.inr ⟨ns, rfl, hns ▸ sorted_commonTasks plugin plugins infoQ, hne⟩

theorem vs_values_prop (plugin : locator) (plugins : List (locator × Info)) :
    ∀ (ps : List (locator × Info)) (errs : List (locator × ConflictErr)),
      (∀ x ∈ errs, x.2 = ConflictErr.differentVersion ∨
        ∃ ns, x.2 = ConflictErr.conflictingTasks ns ∧ ns.Sorted strLe ∧
          ns ≠ []) →
      ∀ x ∈ ps.foldl (vsBody plugin plugins) errs,
        x.2 = ConflictErr.differentVersion ∨
          ∃ ns, x.2 = ConflictErr.conflictingTasks ns ∧ ns.Sorted strLe ∧
            ns ≠ [] := by
  intro ps
  induction ps with
  | nil => intro errs he x hx; exact he x hx
  | cons hd tl ih =>
    intro errs he x hx
    rw [List.foldl_cons] at hx
    refine ih _ ?_ x hx
    intro y hy
    rw [vsBody_eq_pairConflict] at hy
    cases hpc : pairConflict plugin plugins hd.1 hd.2 with
    | none => rw [hpc] at hy; exact he y hy
    | some c =>
      rw [hpc] at hy
      rcases mem_insertA_elim hy with hy | hy
      · exact he y hy
      · rw [hy]
        exact pairConflict_value_prop hpc

theorem verifySingle_values (plugin : locator)
    (plugins : List (locator × Info)) :
    ∀ x ∈ verifySinglePluginCompatibility plugin plugins,
      x.2 = ConflictErr.differentVersion ∨
        ∃ ns, x.2 = ConflictErr.conflictingTasks ns ∧ ns.Sorted strLe ∧
          ns ≠ [] :=
  vs_values_prop plugin plugins plugins [] (fun x hx => absurd hx
    (List.not_mem_nil x))

theorem conflictsMap_values (plugins : List (locator × Info)) :
    ∀ x ∈ conflictsMap plugins, ∀ y ∈ x.2,
      y.2 = ConflictErr.differentVersion ∨
        ∃ ns, y.2 = ConflictErr.conflictingTasks ns ∧ ns.Sorted strLe ∧
          ns ≠ [] := by
  have main : ∀ (ps : List (locator × Info))
      (acc : List (locator × List (locator × ConflictErr))),
      (∀ x ∈ acc, ∀ y ∈ x.2,
        y.2 = ConflictErr.differentVersion ∨
          ∃ ns, y.2 = ConflictErr.conflictingTasks ns ∧ ns.Sorted strLe ∧
            ns ≠ []) →
      ∀ x ∈ ps.foldl
        (fun conflicts curr =>
          let currConflicts := verifySinglePluginCompatibility curr.1 plugins
          if currConflicts.isEmpty then conflicts
          else insertA conflicts curr.1 currConflicts) acc,
        ∀ y ∈ x.2,
          y.2 = ConflictErr.differentVersion ∨
            ∃ ns, y.2 = ConflictErr.conflictingTasks ns ∧ ns.Sorted strLe ∧
              ns ≠ [] := by
    intro ps
    induction ps with
    | nil => intro acc hacc x hx; exact hacc x hx
    | cons hd tl ih =>
      intro acc hacc x hx
      rw [List.foldl_cons] at hx
      refine ih _ ?_ x hx
      intro z hz
      by_cases hemp :
          (verifySinglePluginCompatibility hd.1 plugins).isEmpty
      · simp only [if_pos hemp] at hz
        exact hacc z hz
      · simp only [if_neg hemp] at hz
        rcases mem_insertA_elim hz with hz | hz
        · exact hacc z hz
        · intro y hy
          rw [hz] at hy
          exact verifySingle_values hd.1 plugins y hy
  exact main plugins [] (fun x hx => absurd hx (List.not_mem_nil x))

/-- C5: a resolved plugin set with at least one conflict fails the
whole load — no tasks are returned and the error is the compatibility
error — and the compatibility error is deterministic: it renders the
outer keys in sorted locator order, each plugin's conflict partners in
sorted locator order, and every "conflicting tasks" entry carries its
task names sorted lexicographically. -/
theorem conflicts_fail_whole_load_deterministically
    (pd dd : String) (os : OSArch) (param : projectParams) (w : World)
    (plugins : List (locator × Info))
    (hres : (resolvePlugins pd dd os param w).2.2 = .ok plugins)
    (hconf : conflictsMap plugins ≠ []) :
    (LoadPluginsTasks pd dd os param w).2.2 =
        .error (compatErrString (conflictsMap plugins)) ∧
    (∀ tasks, (LoadPluginsTasks pd dd os param w).2.2 ≠ .ok tasks) ∧
    compatErrString (conflictsMap plugins) =
      (toString (conflictsMap plugins).length ++
          " plugins had compatibility issues:" ++
        String.join
          ((sortLocators ((conflictsMap plugins).map Prod.fst)).map fun k =>
            ("\n" ++ indent ++ locatorStr k ++ ":") ++
              String.join
                ((sortLocators
                    (((lookupA (conflictsMap plugins) k).getD []).map
                      Prod.fst)).map
                  fun innerK => "\n" ++ indent ++ indent ++
                    ((lookupA ((lookupA (conflictsMap plugins) k).getD [])
                        innerK).elim "" ConflictErr.message)))) ∧
    (sortLocators ((conflictsMap plugins).map Prod.fst)).Sorted locLE ∧
    (sortLocators ((conflictsMap plugins).map Prod.fst)).Perm
      ((conflictsMap plugins).map Prod.fst) ∧
    ∀ k inner, (k, inner) ∈ conflictsMap plugins →
      (sortLocators (inner.map Prod.fst)).Sorted locLE ∧
      (sortLocators (inner.map Prod.fst)).Perm (inner.map Prod.fst) ∧
      ∀ q ns, (q, ConflictErr.conflictingTasks ns) ∈ inner →
        ns.Sorted strLe ∧ ns ≠ [] := by
  have hv : verifyPluginCompatibility plugins =
      some (compatErrString (conflictsMap plugins)) :=
    verify_eq_some plugins hconf
  have hL : (LoadPluginsTasks pd dd os param w).2.2 =
      .error (compatErrString (conflictsMap plugins)) := by
    unfold LoadPluginsTasks
    rcases hrp : resolvePlugins pd dd os param w with ⟨w1, evs, res⟩
    rw [hrp] at hres
    have hres2 : res = .ok plugins := hres
    subst hres2
    show (match verifyPluginCompatibility plugins with
      | some e => (w1, evs, (Except.error e : Except String (List Task)))
      | none =>
        let sortedLocs := sortLocators (plugins.map Prod.fst)
        (w1, evs, Except.ok (sortedLocs.flatMap fun loc =>
          ((lookupA plugins loc).getD default).Tasks
            (pluginPath pd loc)))).2.2 =
      Except.error (compatErrString (conflictsMap plugins))
    rw [hv]
  refine ⟨hL, ?_, compatErrString_eq _, sortLocators_sorted _,
    sortLocators_perm _, ?_⟩
  · intro tasks hcontra
    rw [hL] at hcontra
    cases hcontra
  · intro k inner hk
    refine ⟨sortLocators_sorted _, sortLocators_perm _, ?_⟩
    intro q ns hq
    have := conflictsMap_values plugins (k, inner) hk (q, .conflictingTasks ns) hq
    rcases this with h | ⟨ns2, hns2, hsort, hne⟩
    · cases h
    · have : ns = ns2 := by
        have := hns2
        simp only [ConflictErr.conflictingTasks.injEq] at this
        exact this
      rw [this]
      exact ⟨hsort, hne⟩

/-- Witness for C5: two distinct plugins both providing `lint`; the
whole load fails with the deterministic compatibility error. -/
theorem conflicts_fail_whole_load_witness :
    (LoadPluginsTasks "/p" "/d" osLinux paramAB worldAB).2.2 =
      .error (compatErrString (conflictsMap
        [(locA, infoA), (locB, infoB)])) :=
  (conflicts_fail_whole_load_deterministically "/p" "/d" osLinux paramAB
    worldAB [(locA, infoA), (locB, infoB)] (by decide) (by decide)).1

/-! ## Task dispatch in verify mode -/

/-- C8: in verify mode the composed argv is independent of the user's
tail arguments (no user tail is passed to the plugin subprocess); with
apply=false the task's `verifyOptions.applyFalseArgs` tokens are
appended after the task's command; with apply=true nothing follows the
command. -/
theorem verify_mode_argv (t : Task) (projectDir : String) (debug : Bool)
    (tailArgs : List String) :
    (∀ applyTrue, taskArgv t projectDir debug true applyTrue tailArgs =
      taskArgv t projectDir debug true applyTrue []) ∧
    taskArgv t projectDir debug true false tailArgs =
      globalFlagArgs t projectDir debug ++ [t.Command] ++
        t.ApplyFalseArgs ∧
    taskArgv t projectDir debug true true tailArgs =
      globalFlagArgs t projectDir debug ++ [t.Command] := by
  refine ⟨fun applyTrue => rfl, rfl, ?_⟩
  simp [taskArgv]

/-- The modelled invoker reproduces the argv tails observed in the
integration test: normal dispatch passes the tail arguments after the
command; verify mode with apply=false appends `--verify` and no tail;
verify mode with apply=true appends nothing after the command. -/
theorem taskArgv_integration_scenario :
    taskArgv ((infoEcho.Tasks "/exe").headD default) "/proj" false false
        false ["foo", "--bar", "baz"] =
      ["--project-dir", "/proj", "--godel-config",
        "/proj/godel/config/godel.yml", "--config",
        "/proj/godel/config/echo.yml", "echo", "foo", "--bar", "baz"] ∧
    taskArgv ((infoEcho.Tasks "/exe").headD default) "/proj" false true
        false [] =
      ["--project-dir", "/proj", "--godel-config",
        "/proj/godel/config/godel.yml", "--config",
        "/proj/godel/config/echo.yml", "echo", "--verify"] ∧
    taskArgv ((infoEcho.Tasks "/exe").headD default) "/proj" false true
        true [] =
      ["--project-dir", "/proj", "--godel-config",
        "/proj/godel/config/godel.yml", "--config",
        "/proj/godel/config/echo.yml", "echo"] := by
  refine ⟨by decide, by decide, by decide⟩

/-! ## The returned task list order -/

/-- C7: on a successful load the returned tasks are the concatenation,
over the resolved plugins' locators in sorted locator order, of each
plugin's tasks; within a plugin the tasks keep the declaration order of
its TaskInfos. -/
theorem tasks_sorted_by_locator (pd dd : String) (os : OSArch)
    (param : projectParams) (w : World) (tasks : List Task)
    (h : (LoadPluginsTasks pd dd os param w).2.2 = .ok tasks) :
    ∃ plugins : List (locator × Info),
      (resolvePlugins pd dd os param w).2.2 = .ok plugins ∧
      verifyPluginCompatibility plugins = none ∧
      tasks = (sortLocators (plugins.map Prod.fst)).flatMap (fun loc =>
        ((lookupA plugins loc).getD default).Tasks (pluginPath pd loc)) ∧
      (sortLocators (plugins.map Prod.fst)).Sorted locLE ∧
      (sortLocators (plugins.map Prod.fst)).Perm (plugins.map Prod.fst) ∧
      ∀ (info : Info) (path : String),
        (info.Tasks path).map Task.Name =
          info.TaskInfos.map TaskInfo.Name := by
  unfold LoadPluginsTasks at h
  rcases hrp : resolvePlugins pd dd os param w with ⟨w1, evs, res⟩
  rw [hrp] at h
  cases res with
  | error e =>
    have h2 : (Except.error e : Except String (List Task)) =
        Except.ok tasks := h
    cases h2
  | ok plugins =>
    cases hv : verifyPluginCompatibility plugins with
    | some e =>
      have h2 : (match verifyPluginCompatibility plugins with
        | some e => (w1, evs, (Except.error e : Except String (List Task)))
        | none =>
          (w1, evs, Except.ok
            ((sortLocators (plugins.map Prod.fst)).flatMap fun loc =>
              ((lookupA plugins loc).getD default).Tasks
                (pluginPath pd loc)))).2.2 = Except.ok tasks := h
      rw [hv] at h2
      have h3 : (Except.error e : Except String (List Task)) =
          Except.ok tasks := h2
      cases h3
    | none =>
      have h2 : (match verifyPluginCompatibility plugins with
        | some e => (w1, evs, (Except.error e : Except String (List Task)))
        | none =>
          (w1, evs, Except.ok
            ((sortLocators (plugins.map Prod.fst)).flatMap fun loc =>
              ((lookupA plugins loc).getD default).Tasks
                (pluginPath pd loc)))).2.2 = Except.ok tasks := h
      rw [hv] at h2
      have h3 : Except.ok
          ((sortLocators (plugins.map Prod.fst)).flatMap fun loc =>
            ((lookupA plugins loc).getD default).Tasks
              (pluginPath pd loc)) = Except.ok tasks := h2
      have h4 := Except.ok.inj h3
      refine ⟨plugins, rfl, hv, h4.symm, sortLocators_sorted _,
        sortLocators_perm _, fun info path => ?_⟩
      simp [Info.Tasks, List.map_map]

/-- Witness for C7: a successful single-plugin load; the task list is
plugin a's tasks in declaration order. -/
theorem tasks_sorted_by_locator_witness :
    ∃ plugins : List (locator × Info),
      (resolvePlugins "/p" "/d" osLinux paramA worldOK).2.2 =
        .ok plugins ∧
      verifyPluginCompatibility plugins = none ∧
      infoA.Tasks (pluginPath "/p" locA) =
        (sortLocators (plugins.map Prod.fst)).flatMap (fun loc =>
          ((lookupA plugins loc).getD default).Tasks
            (pluginPath "/p" loc)) ∧
      (sortLocators (plugins.map Prod.fst)).Sorted locLE ∧
      (sortLocators (plugins.map Prod.fst)).Perm (plugins.map Prod.fst) ∧
      ∀ (info : Info) (path : String),
        (info.Tasks path).map Task.Name =
          info.TaskInfos.map TaskInfo.Name :=
  tasks_sorted_by_locator "/p" "/d" osLinux paramA worldOK
    (infoA.Tasks (pluginPath "/p" locA)) (by decide)

/-! ## Step lemmas for the resolver -/

theorem installStep_installed (pd dd : String) (w : World) (l : locator)
    (hmem : pluginPath pd l ∈ w.files) :
    installStep pd dd w l = (w, [Event.stat (pluginPath pd l)], .ok ()) := by
  have hcont : w.files.contains (pluginPath pd l) = true := by
    simpa [List.contains] using hmem
  simp [installStep, hcont, hmem]

theorem resolveOnePlugin_installed (pd dd : String) (os : OSArch)
    (w : World) (p : SinglePluginParam)
    (hmem : pluginPath pd p.Locator ∈ w.files) :
    resolveOnePlugin pd dd os w p =
      (w, Event.stat (pluginPath pd p.Locator) ::
          (postInstall w (pluginPath pd p.Locator) p os).1,
        (postInstall w (pluginPath pd p.Locator) p os).2) := by
  simp [resolveOnePlugin, installStep_installed pd dd w p.Locator hmem]

theorem checksumStep_some (w : World) (dst : String)
    (cks : List (OSArch × String)) (os : OSArch) (want got : String)
    (hck : cks.lookup os = some want) (hsha : w.sha256Of dst = .ok got) :
    checksumStep w dst cks os =
      ([Event.checksum dst],
        if got = want then .ok ()
        else .error ("failed to verify checksum for " ++ dst ++ ": want " ++
          want ++ ", got " ++ got)) := by
  unfold checksumStep
  rw [hck, hsha]
  by_cases he : got = want
  · simp [he]
  · simp [he]

theorem postInstall_checksum (w : World) (dst : String)
    (p : SinglePluginParam) (os : OSArch) (want got : String)
    (hck : p.Checksums.lookup os = some want)
    (hsha : w.sha256Of dst = .ok got) :
    postInstall w dst p os =
      (Event.checksum dst ::
          (if got = want then (infoStep w dst p.Locator).1 else []),
        if got = want then (infoStep w dst p.Locator).2
        else .error ("failed to verify checksum for " ++ dst ++ ": want " ++
          want ++ ", got " ++ got)) := by
  unfold postInstall
  rw [checksumStep_some w dst p.Checksums os want got hck hsha]
  by_cases he : got = want
  · simp [he]
  · simp [he]

/-- C2 (amended): for a plugin whose install file exists and which has
a configured checksum for the current OSArch, the verifier compares the
computed digest with the expected digest by exact string equality; on a
mismatch the plugin fails with a fatal error naming want and got, and
the world is returned unchanged — the offending file is retained, not
deleted. -/
theorem checksum_exact_comparison_and_retention (pd dd : String)
    (os : OSArch) (w : World) (p : SinglePluginParam) (want got : String)
    (hmem : pluginPath pd p.Locator ∈ w.files)
    (hck : p.Checksums.lookup os = some want)
    (hsha : w.sha256Of (pluginPath pd p.Locator) = .ok got) :
    resolveOnePlugin pd dd os w p =
      (w,
        Event.stat (pluginPath pd p.Locator) ::
          Event.checksum (pluginPath pd p.Locator) ::
          (if got = want
            then (infoStep w (pluginPath pd p.Locator) p.Locator).1
            else []),
        if got = want
          then (infoStep w (pluginPath pd p.Locator) p.Locator).2
          else .error ("failed to verify checksum for " ++
            pluginPath pd p.Locator ++ ": want " ++ want ++ ", got " ++
            got)) := by
  rw [resolveOnePlugin_installed pd dd os w p hmem,
    postInstall_checksum w (pluginPath pd p.Locator) p os want got hck hsha]

/-- Witness for C2: plugin a installed with digest "ab" but configured
checksum "AB"; the comparison is exact, so the plugin fails and the
world (including the offending file) is unchanged. -/
theorem checksum_exact_comparison_witness :
    resolveOnePlugin "/p" "/d" osLinux worldInstalled pAUpper =
      (worldInstalled,
        Event.stat (pluginPath "/p" pAUpper.Locator) ::
          Event.checksum (pluginPath "/p" pAUpper.Locator) ::
          (if "ab" = "AB"
            then (infoStep worldInstalled
              (pluginPath "/p" pAUpper.Locator) pAUpper.Locator).1
            else []),
        if "ab" = "AB"
          then (infoStep worldInstalled
            (pluginPath "/p" pAUpper.Locator) pAUpper.Locator).2
          else .error ("failed to verify checksum for " ++
            pluginPath "/p" pAUpper.Locator ++ ": want " ++ "AB" ++
            ", got " ++ "ab")) :=
  checksum_exact_comparison_and_retention "/p" "/d" osLinux worldInstalled
    pAUpper "AB" "ab" (by decide) (by decide) rfl

/-- Counterexample to C2 as stated: an expected digest "AB" and a
computed digest "ab" are equal case-insensitively, yet the verifier
fails the plugin — the comparison is exact string equality, not
case-insensitive. -/
theorem checksum_not_case_insensitive_counterexample :
    "ab".data.map Char.toLower = "AB".data.map Char.toLower ∧
    (resolvePlugins "/p" "/d" osLinux paramAckUpper worldOK).2.2 =
      .error ("failed to resolve 1 plugin:\n    failed to verify checksum for /p/com.palantir-a-1.0.0: want AB, got ab") :=
  ⟨by decide, by decide⟩

theorem extractPluginTGZ_copy_fail (w : World) (dst tgz : String)
    (l : locator) (e : String) (hopen : w.openInstall dst = .ok ())
    (hopenTGZ : w.openTGZ l = .ok ())
    (hclose : w.closeInstall dst = .ok ())
    (hcopy : w.copyTGZ l = .error e) :
    extractPluginTGZ w dst tgz l =
      ({ w with files := dst :: w.files }, .error e) := by
  simp [extractPluginTGZ, hopen, hopenTGZ, hclose, hcopy]

theorem installStep_copy_fail (pd dd : String) (w : World) (l : locator)
    (e : String) (hnot : pluginPath pd l ∉ w.files)
    (hfetch : w.fetchTGZ l = .ok ())
    (hopen : w.openInstall (pluginPath pd l) = .ok ())
    (hopenTGZ : w.openTGZ l = .ok ())
    (hclose : w.closeInstall (pluginPath pd l) = .ok ())
    (hcopy : w.copyTGZ l = .error e) :
    installStep pd dd w l =
      ({ w with files := pluginPath pd l :: w.files },
        [Event.stat (pluginPath pd l), Event.fetch l, Event.unpack l],
        .error ("failed to extract plugin from archive into destination: "
          ++ e)) := by
  have hcont : w.files.contains (pluginPath pd l) = false := by
    simpa [List.contains] using hnot
  simp [installStep, hcont, hnot, hfetch,
    extractPluginTGZ_copy_fail w (pluginPath pd l) _ l e hopen hopenTGZ
      hclose hcopy]

/-- C3 (amended/corrected): the installation file is opened directly at
the install path with create+truncate semantics before the copy; when
the copy out of the archive fails partway, the plugin's resolution
fails with the extraction error, but the partially-written file remains
at the install path — it is neither written to a sibling temporary nor
deleted on error. -/
theorem failed_unpack_leaves_file (pd dd : String) (os : OSArch)
    (w : World) (p : SinglePluginParam) (e : String)
    (hnot : pluginPath pd p.Locator ∉ w.files)
    (hfetch : w.fetchTGZ p.Locator = .ok ())
    (hopen : w.openInstall (pluginPath pd p.Locator) = .ok ())
    (hopenTGZ : w.openTGZ p.Locator = .ok ())
    (hclose : w.closeInstall (pluginPath pd p.Locator) = .ok ())
    (hcopy : w.copyTGZ p.Locator = .error e) :
    resolveOnePlugin pd dd os w p =
      ({ w with files := pluginPath pd p.Locator :: w.files },
        [Event.stat (pluginPath pd p.Locator), Event.fetch p.Locator,
          Event.unpack p.Locator],
        .error ("failed to extract plugin from archive into destination: "
          ++ e)) ∧
    pluginPath pd p.Locator ∈ (resolveOnePlugin pd dd os w p).1.files := by
  have hinst := installStep_copy_fail pd dd w p.Locator e hnot hfetch hopen
    hopenTGZ hclose hcopy
  have hres : resolveOnePlugin pd dd os w p =
      ({ w with files := pluginPath pd p.Locator :: w.files },
        [Event.stat (pluginPath pd p.Locator), Event.fetch p.Locator,
          Event.unpack p.Locator],
        .error ("failed to extract plugin from archive into destination: "
          ++ e)) := by
    simp [resolveOnePlugin, hinst]
  refine ⟨hres, ?_⟩
  rw [hres]
  exact List.mem_cons_self _ _

/-- Witness for C3 (amended): plugin a, fetch succeeds, install file
created, copy fails; the error is reported and the install path is in
the file set afterwards. -/
theorem failed_unpack_leaves_file_witness :
    resolveOnePlugin "/p" "/d" osLinux worldCopyFail ⟨locA, [], none⟩ =
      ({ worldCopyFail with
          files := pluginPath "/p" locA :: worldCopyFail.files },
        [Event.stat (pluginPath "/p" locA), Event.fetch locA,
          Event.unpack locA],
        .error ("failed to extract plugin from archive into destination: "
          ++ "archive is corrupt")) ∧
    pluginPath "/p" locA ∈
      (resolveOnePlugin "/p" "/d" osLinux worldCopyFail
        ⟨locA, [], none⟩).1.files :=
  failed_unpack_leaves_file "/p" "/d" osLinux worldCopyFail ⟨locA, [], none⟩
    "archive is corrupt" (by decide) rfl rfl rfl rfl rfl

/-- Counterexample to C3 as stated: after a copy failure the install
path exists in the resulting world even though it did not exist before
and the plugin's resolution failed — a failed unpack leaves a
valid-looking stub at the install path. -/
theorem unpack_failure_stub_counterexample :
    "/p/com.palantir-a-1.0.0" ∉ worldCopyFail.files ∧
    (resolvePlugins "/p" "/d" osLinux paramA worldCopyFail).2.2 =
      .error ("failed to resolve 1 plugin:\n    failed to extract plugin from archive into destination: archive is corrupt") ∧
    "/p/com.palantir-a-1.0.0" ∈
      (resolvePlugins "/p" "/d" osLinux paramA worldCopyFail).1.files :=
  ⟨by decide, by decide, by decide⟩

/-! ## Oracle preservation and idempotent re-runs -/

theorem sameOracles_refl (w : World) : w.sameOracles w :=
  ⟨rfl, rfl, rfl, rfl, rfl, rfl, rfl⟩

theorem sameOracles_symm {w w' : World} (h : w.sameOracles w') :
    w'.sameOracles w :=
  ⟨h.fetchTGZ.symm, h.openInstall.symm, h.openTGZ.symm, h.copyTGZ.symm,
    h.closeInstall.symm, h.sha256Of.symm, h.infoOf.symm⟩

theorem sameOracles_trans {w1 w2 w3 : World} (h : w1.sameOracles w2)
    (h2 : w2.sameOracles w3) : w1.sameOracles w3 :=
  ⟨h.fetchTGZ.trans h2.fetchTGZ, h.openInstall.trans h2.openInstall,
    h.openTGZ.trans h2.openTGZ, h.copyTGZ.trans h2.copyTGZ,
    h.closeInstall.trans h2.closeInstall, h.sha256Of.trans h2.sha256Of,
    h.infoOf.trans h2.infoOf⟩

theorem sameOracles_addFile (w : World) (f : String) :
    World.sameOracles { w with files := f :: w.files } w :=
  ⟨rfl, rfl, rfl, rfl, rfl, rfl, rfl⟩

theorem postInstall_congr {w w' : World} (h1 : w.sha256Of = w'.sha256Of)
    (h2 : w.infoOf = w'.infoOf) (dst : String) (p : SinglePluginParam)
    (os : OSArch) : postInstall w dst p os = postInstall w' dst p os := by
  unfold postInstall checksumStep infoStep
  rw [h1, h2]

theorem postInstall_events_sub (w : World) (dst : String)
    (p : SinglePluginParam) (os : OSArch) :
    ∀ e ∈ (postInstall w dst p os).1,
      e = Event.checksum dst ∨ e = Event.infoProbe dst := by
  intro e he
  rcases hck : p.Checksums.lookup os with _ | want
  · rcases hio : w.infoOf dst with e2 | info <;>
      simp [postInstall, checksumStep, infoStep, hck, hio] at he <;>
      exact Or.inr he
  · rcases hsha : w.sha256Of dst with e2 | got
    · simp [postInstall, checksumStep, infoStep, hck, hsha] at he
      exact Or.inl he
    · by_cases hgw : got = want
      · rcases hio : w.infoOf dst with e3 | info <;>
          simp [postInstall, checksumStep, infoStep, hck, hsha, hgw,
            hio] at he <;> tauto
      · simp [postInstall, checksumStep, infoStep, hck, hsha, hgw] at he
        exact Or.inl he

theorem installStep_spec (pd dd : String) (w : World) (l : locator) :
    ((installStep pd dd w l).2.2 = .ok () →
      pluginPath pd l ∈ (installStep pd dd w l).1.files) ∧
    ((installStep pd dd w l).1 = w ∨
      (installStep pd dd w l).1 =
        { w with files := pluginPath pd l :: w.files }) := by
  by_cases hcont : w.files.contains (pluginPath pd l) = true
  · have hmem : pluginPath pd l ∈ w.files := by
      simpa [List.contains] using hcont
    rw [installStep_installed pd dd w l hmem]
    exact ⟨fun _ => hmem, Or.inl rfl⟩
  · have hnot : pluginPath pd l ∉ w.files := by
      intro hm
      exact hcont (by simpa [List.contains] using hm)
    cases hf : w.fetchTGZ l with
    | error e =>
      have hi : installStep pd dd w l =
          (w, [Event.stat (pluginPath pd l), Event.fetch l], .error e) := by
        simp [installStep, hcont, hnot, hf]
      rw [hi]
      exact ⟨(fun h => nomatch h), Or.inl rfl⟩
    | ok u =>
      cases ho : w.openInstall (pluginPath pd l) with
      | error e2 =>
        have hx : extractPluginTGZ w (pluginPath pd l)
            (dd ++ "/" ++ pluginFileName l ++ ".tgz") l =
            (w, .error ("failed to create file " ++ pluginPath pd l ++
              ": " ++ e2)) := by
          simp [extractPluginTGZ, ho]
        have hi : installStep pd dd w l =
            (w, [Event.stat (pluginPath pd l), Event.fetch l,
              Event.unpack l],
              .error ("failed to extract plugin from archive into destination: "
                ++ ("failed to create file " ++ pluginPath pd l ++ ": " ++
                  e2))) := by
          simp [installStep, hcont, hnot, hf, hx]
        rw [hi]
        exact ⟨(fun h => nomatch h), Or.inl rfl⟩
      | ok u2 =>
        have hx1 : (extractPluginTGZ w (pluginPath pd l)
            (dd ++ "/" ++ pluginFileName l ++ ".tgz") l).1 =
            { w with files := pluginPath pd l :: w.files } := by
          simp [extractPluginTGZ, ho]
        rcases hx : extractPluginTGZ w (pluginPath pd l)
            (dd ++ "/" ++ pluginFileName l ++ ".tgz") l with ⟨w1, res2⟩
        rw [hx] at hx1
        cases res2 with
        | error e3 =>
          have hi : installStep pd dd w l =
              (w1, [Event.stat (pluginPath pd l), Event.fetch l,
                Event.unpack l],
                .error ("failed to extract plugin from archive into destination: "
                  ++ e3)) := by
            simp [installStep, hcont, hnot, hf, hx]
          rw [hi, hx1]
          exact ⟨(fun h => nomatch h), Or.inr rfl⟩
        | ok u3 =>
          have hi : installStep pd dd w l =
              (w1, [Event.stat (pluginPath pd l), Event.fetch l,
                Event.unpack l], .ok ()) := by
            simp [installStep, hcont, hnot, hf, hx]
          rw [hi, hx1]
          exact ⟨fun _ => List.mem_cons_self _ _, Or.inr rfl⟩

theorem resolveOnePlugin_spec (pd dd : String) (os : OSArch) (w : World)
    (p : SinglePluginParam) :
    ((resolveOnePlugin pd dd os w p).1.sameOracles w ∧
      ∀ f ∈ w.files, f ∈ (resolveOnePlugin pd dd os w p).1.files) ∧
    ∀ info, (resolveOnePlugin pd dd os w p).2.2 = .ok info →
      pluginPath pd p.Locator ∈ (resolveOnePlugin pd dd os w p).1.files ∧
      (postInstall w (pluginPath pd p.Locator) p os).2 = .ok info := by
  rcases hi : installStep pd dd w p.Locator with ⟨w1, evs, res⟩
  have hspec := installStep_spec pd dd w p.Locator
  rw [hi] at hspec
  have horacle : w1.sameOracles w := by
    rcases hspec.2 with h | h
    · have h2 : w1 = w := h
      rw [h2]
      exact sameOracles_refl w
    · have h2 : w1 = { w with files := pluginPath pd p.Locator :: w.files } :=
        h
      rw [h2]
      exact sameOracles_addFile w _
  have hfmono : ∀ f ∈ w.files, f ∈ w1.files := by
    rcases hspec.2 with h | h
    · have h2 : w1 = w := h
      rw [h2]
      exact fun f hf => hf
    · have h2 : w1 = { w with files := pluginPath pd p.Locator :: w.files } :=
        h
      rw [h2]
      exact fun f hf => List.mem_cons_of_mem _ hf
  cases res with
  | error e =>
    have hone : resolveOnePlugin pd dd os w p = (w1, evs, .error e) := by
      unfold resolveOnePlugin
      rw [hi]
    rw [hone]
    exact ⟨⟨horacle, hfmono⟩, fun info hok => nomatch hok⟩
  | ok u =>
    have hone : resolveOnePlugin pd dd os w p =
        (w1, evs ++ (postInstall w1 (pluginPath pd p.Locator) p os).1,
          (postInstall w1 (pluginPath pd p.Locator) p os).2) := by
      unfold resolveOnePlugin
      rw [hi]
    rw [hone]
    refine ⟨⟨horacle, hfmono⟩, fun info hok => ?_⟩
    have hcongr : postInstall w1 (pluginPath pd p.Locator) p os =
        postInstall w (pluginPath pd p.Locator) p os :=
      postInstall_congr horacle.sha256Of horacle.infoOf _ _ _
    refine ⟨?_, by rw [← hcongr]; exact hok⟩
    cases u
    exact hspec.1 rfl

theorem resolveStep_of_ok (pd dd : String) (os : OSArch) (st : LoopState)
    (p : SinglePluginParam) (w1 : World) (evs1 : List Event) (info : Info)
    (h : resolveOnePlugin pd dd os st.w p = (w1, evs1, .ok info)) :
    resolveStep pd dd os st p =
      { w := w1, evs := st.evs ++ evs1,
        plugins := insertA st.plugins p.Locator info,
        pluginErrors := st.pluginErrors } := by
  simp [resolveStep, h]

theorem resolveStep_of_error (pd dd : String) (os : OSArch)
    (st : LoopState) (p : SinglePluginParam) (w1 : World)
    (evs1 : List Event) (e : String)
    (h : resolveOnePlugin pd dd os st.w p = (w1, evs1, .error e)) :
    resolveStep pd dd os st p =
      { w := w1, evs := st.evs ++ evs1, plugins := st.plugins,
        pluginErrors := insertA st.pluginErrors p.Locator e } := by
  simp [resolveStep, h]

theorem resolveStep_w (pd dd : String) (os : OSArch) (st : LoopState)
    (p : SinglePluginParam) :
    (resolveStep pd dd os st p).w = (resolveOnePlugin pd dd os st.w p).1 := by
  unfold resolveStep
  rcases h : resolveOnePlugin pd dd os st.w p with ⟨w1, evs, res⟩
  cases res <;> rfl

/-! ## The resolver sweep: error accumulation and the summary error -/

theorem sweep_world (pd dd : String) (os : OSArch) :
    ∀ (ps : List SinglePluginParam) (st : LoopState),
      (ps.foldl (resolveStep pd dd os) st).w.sameOracles st.w ∧
      ∀ f ∈ st.w.files, f ∈ (ps.foldl (resolveStep pd dd os) st).w.files := by
  intro ps
  induction ps with
  | nil => intro st; exact ⟨sameOracles_refl _, fun f hf => hf⟩
  | cons hd tl ih =>
    intro st
    rw [List.foldl_cons]
    have hstep := (resolveOnePlugin_spec pd dd os st.w hd).1
    have hw := resolveStep_w pd dd os st hd
    constructor
    · exact sameOracles_trans (ih _).1 (by rw [hw]; exact hstep.1)
    · intro f hf
      exact (ih _).2 f (by rw [hw]; exact hstep.2 f hf)

theorem resolveStep_errors_nonempty (pd dd : String) (os : OSArch)
    (st : LoopState) (p : SinglePluginParam) (h : st.pluginErrors ≠ []) :
    (resolveStep pd dd os st p).pluginErrors ≠ [] := by
  unfold resolveStep
  rcases hro : resolveOnePlugin pd dd os st.w p with ⟨w1, evs, res⟩
  cases res with
  | error e => exact insertA_ne_nil _ _ _
  | ok info => exact h

theorem sweep_errors_nonempty (pd dd : String) (os : OSArch) :
    ∀ (ps : List SinglePluginParam) (st : LoopState),
      st.pluginErrors ≠ [] →
      (ps.foldl (resolveStep pd dd os) st).pluginErrors ≠ [] := by
  intro ps
  induction ps with
  | nil => intro st h; exact h
  | cons hd tl ih =>
    intro st h
    rw [List.foldl_cons]
    exact ih _ (resolveStep_errors_nonempty pd dd os st hd h)

theorem sweep_mem_of_no_errors (pd dd : String) (os : OSArch) :
    ∀ (ps : List SinglePluginParam) (st : LoopState),
      (ps.foldl (resolveStep pd dd os) st).pluginErrors = [] →
      ∀ p ∈ ps, pluginPath pd p.Locator ∈
        (ps.foldl (resolveStep pd dd os) st).w.files := by
  intro ps
  induction ps with
  | nil => intro st h p hp; cases hp
  | cons hd tl ih =>
    intro st h p hp
    rw [List.foldl_cons] at h ⊢
    rcases List.mem_cons.mp hp with he | hm
    · subst he
      rcases hro : resolveOnePlugin pd dd os st.w p with ⟨w1, evs1, res⟩
      cases res with
      | error e =>
        exfalso
        have hne : (resolveStep pd dd os st p).pluginErrors ≠ [] := by
          rw [resolveStep_of_error pd dd os st p w1 evs1 e hro]
          exact insertA_ne_nil _ _ _
        exact sweep_errors_nonempty pd dd os tl _ hne h
      | ok info =>
        have hspec := (resolveOnePlugin_spec pd dd os st.w p).2 info
          (by rw [hro])
        have hmem : pluginPath pd p.Locator ∈ w1.files := by
          rw [hro] at hspec
          exact hspec.1
        have hst : (resolveStep pd dd os st p).w = w1 := by
          rw [resolveStep_w pd dd os st p, hro]
        exact (sweep_world pd dd os tl _).2 _ (by rw [hst]; exact hmem)
    · exact ih _ h p hm

theorem sweep_rerun (pd dd : String) (os : OSArch) :
    ∀ (ps : List SinglePluginParam) (st1 st2 : LoopState),
      st1.w.sameOracles st2.w →
      st1.plugins = st2.plugins →
      st1.pluginErrors = st2.pluginErrors →
      (∀ p ∈ ps, pluginPath pd p.Locator ∈ st2.w.files) →
      (ps.foldl (resolveStep pd dd os) st1).pluginErrors = [] →
      (ps.foldl (resolveStep pd dd os) st2).plugins =
        (ps.foldl (resolveStep pd dd os) st1).plugins ∧
      (ps.foldl (resolveStep pd dd os) st2).pluginErrors =
        (ps.foldl (resolveStep pd dd os) st1).pluginErrors ∧
      (ps.foldl (resolveStep pd dd os) st2).w = st2.w ∧
      ∀ e ∈ (ps.foldl (resolveStep pd dd os) st2).evs,
        e ∈ st2.evs ∨
          ∀ l : locator, e ≠ Event.fetch l ∧ e ≠ Event.unpack l := by
  intro ps
  induction ps with
  | nil =>
    intro st1 st2 _ hpl herr _ _
    exact ⟨hpl.symm, herr.symm, rfl, fun e he => Or.inl he⟩
  | cons hd tl ih =>
    intro st1 st2 hor hpl herr hmem hfin
    rw [List.foldl_cons] at hfin ⊢
    rcases hro : resolveOnePlugin pd dd os st1.w hd with ⟨w1, evs1, res⟩
    cases res with
    | error e =>
      exfalso
      have hne : (resolveStep pd dd os st1 hd).pluginErrors ≠ [] := by
        rw [resolveStep_of_error pd dd os st1 hd w1 evs1 e hro]
        exact insertA_ne_nil _ _ _
      exact sweep_errors_nonempty pd dd os tl _ hne hfin
    | ok info =>
      have hpost1 : (postInstall st1.w (pluginPath pd hd.Locator) hd os).2 =
          .ok info :=
        ((resolveOnePlugin_spec pd dd os st1.w hd).2 info (by rw [hro])).2
      have hmem2 : pluginPath pd hd.Locator ∈ st2.w.files :=
        hmem hd (List.mem_cons_self hd tl)
      have hone2 := resolveOnePlugin_installed pd dd os st2.w hd hmem2
      have hpc : postInstall st2.w (pluginPath pd hd.Locator) hd os =
          postInstall st1.w (pluginPath pd hd.Locator) hd os :=
        postInstall_congr (sameOracles_symm hor).sha256Of
          (sameOracles_symm hor).infoOf _ _ _
      have hres2 : (postInstall st2.w (pluginPath pd hd.Locator) hd os).2 =
          .ok info := by
        rw [hpc]
        exact hpost1
      have hro2 : resolveOnePlugin pd dd os st2.w hd =
          (st2.w, Event.stat (pluginPath pd hd.Locator) ::
            (postInstall st2.w (pluginPath pd hd.Locator) hd os).1,
            .ok info) := by
        rw [hone2, hres2]
      have hstep1 := resolveStep_of_ok pd dd os st1 hd w1 evs1 info hro
      have hstep2 := resolveStep_of_ok pd dd os st2 hd st2.w
        (Event.stat (pluginPath pd hd.Locator) ::
          (postInstall st2.w (pluginPath pd hd.Locator) hd os).1) info hro2
      have hw1or : w1.sameOracles st1.w := by
        have := (resolveOnePlugin_spec pd dd os st1.w hd).1.1
        rw [hro] at this
        exact this
      have hor' : (resolveStep pd dd os st1 hd).w.sameOracles
          (resolveStep pd dd os st2 hd).w := by
        rw [hstep1, hstep2]
        exact sameOracles_trans hw1or hor
      have hpl' : (resolveStep pd dd os st1 hd).plugins =
          (resolveStep pd dd os st2 hd).plugins := by
        rw [hstep1, hstep2]
        simp [hpl]
      have herr' : (resolveStep pd dd os st1 hd).pluginErrors =
          (resolveStep pd dd os st2 hd).pluginErrors := by
        rw [hstep1, hstep2]
        simp [herr]
      have hmem' : ∀ p ∈ tl, pluginPath pd p.Locator ∈
          (resolveStep pd dd os st2 hd).w.files := by
        rw [hstep2]
        exact fun p hp => hmem p (List.mem_cons_of_mem hd hp)
      obtain ⟨ha, hb, hc, hev⟩ := ih (resolveStep pd dd os st1 hd)
        (resolveStep pd dd os st2 hd) hor' hpl' herr' hmem' hfin
      refine ⟨ha, hb, ?_, ?_⟩
      · rw [hc, hstep2]
      · intro e he
        rcases hev e he with h2 | h2
        · rw [hstep2] at h2
          simp only [List.mem_append, List.mem_cons] at h2
          rcases h2 with h2 | h2 | h2
          · exact Or.inl h2
          · subst h2
            exact Or.inr fun l => ⟨(fun hx => nomatch hx),
              (fun hx => nomatch hx)⟩
          · rcases postInstall_events_sub st2.w (pluginPath pd hd.Locator)
              hd os e h2 with h3 | h3 <;> subst h3 <;>
              exact Or.inr fun l => ⟨(fun hx => nomatch hx),
                (fun hx => nomatch hx)⟩
        · exact Or.inr h2

theorem sweep_keys_monotone (pd dd : String) (os : OSArch) :
    ∀ (ps : List SinglePluginParam) (st : LoopState) (l : locator),
      (l ∈ st.plugins.map Prod.fst →
        l ∈ (ps.foldl (resolveStep pd dd os) st).plugins.map Prod.fst) ∧
      (l ∈ st.pluginErrors.map Prod.fst →
        l ∈ (ps.foldl (resolveStep pd dd os) st).pluginErrors.map
          Prod.fst) := by
  intro ps
  induction ps with
  | nil => intro st l; exact ⟨id, id⟩
  | cons hd tl ih =>
    intro st l
    rw [List.foldl_cons]
    have hstep :
        (l ∈ st.plugins.map Prod.fst →
          l ∈ (resolveStep pd dd os st hd).plugins.map Prod.fst) ∧
        (l ∈ st.pluginErrors.map Prod.fst →
          l ∈ (resolveStep pd dd os st hd).pluginErrors.map Prod.fst) := by
      unfold resolveStep
      rcases hro : resolveOnePlugin pd dd os st.w hd with ⟨w1, evs, res⟩
      cases res with
      | error e => exact ⟨id, keys_insertA_of_mem _ _⟩
      | ok info => exact ⟨keys_insertA_of_mem _ _, id⟩
    exact ⟨fun hm => (ih _ l).1 (hstep.1 hm), fun hm => (ih _ l).2 (hstep.2 hm)⟩

theorem sweep_coverage (pd dd : String) (os : OSArch) :
    ∀ (ps : List SinglePluginParam) (st : LoopState) (p : SinglePluginParam),
      p ∈ ps →
      p.Locator ∈ (ps.foldl (resolveStep pd dd os) st).plugins.map Prod.fst ∨
      p.Locator ∈ (ps.foldl (resolveStep pd dd os) st).pluginErrors.map
        Prod.fst := by
  intro ps
  induction ps with
  | nil => intro st p h; cases h
  | cons hd tl ih =>
    intro st p h
    rw [List.foldl_cons]
    rcases List.mem_cons.mp h with he | hm
    · subst he
      have hbase :
          p.Locator ∈ (resolveStep pd dd os st p).plugins.map Prod.fst ∨
          p.Locator ∈ (resolveStep pd dd os st p).pluginErrors.map
            Prod.fst := by
        unfold resolveStep
        rcases hro : resolveOnePlugin pd dd os st.w p with ⟨w1, evs, res⟩
        cases res with
        | error e => exact Or.inr (self_mem_keys_insertA _ _ _)
        | ok info => exact Or.inl (self_mem_keys_insertA _ _ _)
      rcases hbase with hb | hb
      · exact Or.inl ((sweep_keys_monotone pd dd os tl _ p.Locator).1 hb)
      · exact Or.inr ((sweep_keys_monotone pd dd os tl _ p.Locator).2 hb)
    · exact ih _ p hm

theorem resolveSummaryError_eq (errs : List (locator × String)) :
    resolveSummaryError errs =
      "failed to resolve " ++ toString errs.length ++ " " ++
        (if errs.length = 1 then "plugin" else "plugins") ++ ":" ++
        String.join ((sortLocators (errs.map Prod.fst)).map fun k =>
          ("\n" ++ indent) ++ (lookupA errs k).getD "") := by
  unfold resolveSummaryError
  rw [intercalate_cons, List.map_map]
  rfl

/-- C4: the sweep covers every declared plugin, accumulating rather
than short-circuiting: each declared locator ends up either resolved
or in the error map.  When errors accumulated, the returned error is
"failed to resolve N plugin(s):" — singular noun exactly when N = 1 —
followed by each failing plugin's error on its own line indented four
spaces, in sorted locator order. -/
theorem error_accumulation_and_summary (pd dd : String) (os : OSArch)
    (param : projectParams) (w : World)
    (h : (resolveSweep pd dd os param w).pluginErrors ≠ []) :
    (∀ p ∈ param.Plugins,
      p.Locator ∈ (resolveSweep pd dd os param w).plugins.map Prod.fst ∨
      p.Locator ∈ (resolveSweep pd dd os param w).pluginErrors.map
        Prod.fst) ∧
    (resolvePlugins pd dd os param w).2.2 =
      .error (resolveSummaryError
        (resolveSweep pd dd os param w).pluginErrors) ∧
    resolveSummaryError (resolveSweep pd dd os param w).pluginErrors =
      "failed to resolve " ++
        toString (resolveSweep pd dd os param w).pluginErrors.length ++
        " " ++
        (if (resolveSweep pd dd os param w).pluginErrors.length = 1
          then "plugin" else "plugins") ++ ":" ++
        String.join
          ((sortLocators
              ((resolveSweep pd dd os param w).pluginErrors.map
                Prod.fst)).map fun k =>
            ("\n" ++ indent) ++
              (lookupA (resolveSweep pd dd os param w).pluginErrors
                k).getD "") ∧
    (sortLocators
      ((resolveSweep pd dd os param w).pluginErrors.map Prod.fst)).Sorted
        locLE ∧
    (sortLocators
      ((resolveSweep pd dd os param w).pluginErrors.map Prod.fst)).Perm
        ((resolveSweep pd dd os param w).pluginErrors.map Prod.fst) := by
  refine ⟨fun p hp => sweep_coverage pd dd os param.Plugins _ p hp, ?_,
    resolveSummaryError_eq _, sortLocators_sorted _, sortLocators_perm _⟩
  have hemp : (resolveSweep pd dd os param w).pluginErrors.isEmpty = false := by
    cases hc : (resolveSweep pd dd os param w).pluginErrors with
    | nil => exact absurd hc h
    | cons x xs => rfl
  simp [resolvePlugins, hemp]

/-- Witness for C4: a single plugin whose fetch fails; the sweep
records its error and the summary error is returned. -/
theorem error_accumulation_and_summary_witness :
    (resolvePlugins "/p" "/d" osLinux paramA worldFetchFail).2.2 =
      .error (resolveSummaryError
        (resolveSweep "/p" "/d" osLinux paramA worldFetchFail).pluginErrors) :=
  (error_accumulation_and_summary "/p" "/d" osLinux paramA worldFetchFail
    (by decide)).2.1

/-- C9: if any plugin failed any resolution step (the sweep accumulated
at least one per-plugin error), `LoadPluginsTasks` returns the summary
error and no task list is returned, not even for the plugins that
resolved successfully. -/
theorem any_failure_fails_whole_load (pd dd : String) (os : OSArch)
    (param : projectParams) (w : World)
    (h : (resolveSweep pd dd os param w).pluginErrors ≠ []) :
    (LoadPluginsTasks pd dd os param w).2.2 =
      .error (resolveSummaryError
        (resolveSweep pd dd os param w).pluginErrors) ∧
    ∀ tasks, (LoadPluginsTasks pd dd os param w).2.2 ≠ .ok tasks := by
  have hrp : resolvePlugins pd dd os param w =
      ((resolveSweep pd dd os param w).w,
        (resolveSweep pd dd os param w).evs,
        .error (resolveSummaryError
          (resolveSweep pd dd os param w).pluginErrors)) := by
    have hemp :
        (resolveSweep pd dd os param w).pluginErrors.isEmpty = false := by
      cases hc : (resolveSweep pd dd os param w).pluginErrors with
      | nil => exact absurd hc h
      | cons x xs => rfl
    simp [resolvePlugins, hemp]
  have hL : (LoadPluginsTasks pd dd os param w).2.2 =
      .error (resolveSummaryError
        (resolveSweep pd dd os param w).pluginErrors) := by
    unfold LoadPluginsTasks
    rw [hrp]
  refine ⟨hL, fun tasks hcontra => ?_⟩
  rw [hL] at hcontra
  cases hcontra

/-- Witness for C9: a single plugin whose fetch fails; the whole load
returns the summary error. -/
theorem any_failure_fails_whole_load_witness :
    (LoadPluginsTasks "/p" "/d" osLinux paramA worldFetchFail).2.2 =
      .error (resolveSummaryError
        (resolveSweep "/p" "/d" osLinux paramA worldFetchFail).pluginErrors) :=
  (any_failure_fails_whole_load "/p" "/d" osLinux paramA worldFetchFail
    (by decide)).1

theorem resolvePlugins_proj (pd dd : String) (os : OSArch)
    (param : projectParams) (w : World) :
    (resolvePlugins pd dd os param w).1 =
      (resolveSweep pd dd os param w).w ∧
    (resolvePlugins pd dd os param w).2.1 =
      (resolveSweep pd dd os param w).evs := by
  unfold resolvePlugins
  by_cases h : (resolveSweep pd dd os param w).pluginErrors.isEmpty <;>
    simp [h]

theorem resolvePlugins_ok_inv (pd dd : String) (os : OSArch)
    (param : projectParams) (w : World) (m : List (locator × Info))
    (h : (resolvePlugins pd dd os param w).2.2 = .ok m) :
    (resolveSweep pd dd os param w).pluginErrors = [] ∧
    (resolveSweep pd dd os param w).plugins = m := by
  unfold resolvePlugins at h
  by_cases hemp : (resolveSweep pd dd os param w).pluginErrors.isEmpty
  · refine ⟨?_, ?_⟩
    · cases hc : (resolveSweep pd dd os param w).pluginErrors with
      | nil => rfl
      | cons x xs =>
        rw [hc] at hemp
        exact absurd hemp (by simp)
    · simp only [hemp, if_true] at h
      exact Except.ok.inj h
  · simp only [hemp, if_false] at h
    exact absurd h (by simp)

theorem resolvePlugins_of_no_errors (pd dd : String) (os : OSArch)
    (param : projectParams) (w : World)
    (h : (resolveSweep pd dd os param w).pluginErrors = []) :
    (resolvePlugins pd dd os param w).2.2 =
      .ok (resolveSweep pd dd os param w).plugins := by
  unfold resolvePlugins
  simp [h]

theorem resolve_rerun (pd dd : String) (os : OSArch)
    (param : projectParams) (w : World) (m : List (locator × Info))
    (h : (resolvePlugins pd dd os param w).2.2 = .ok m) :
    (resolvePlugins pd dd os param
        (resolvePlugins pd dd os param w).1).2.2 = .ok m ∧
    (resolvePlugins pd dd os param
        (resolvePlugins pd dd os param w).1).1 =
      (resolvePlugins pd dd os param w).1 ∧
    noTransfer (resolvePlugins pd dd os param
        (resolvePlugins pd dd os param w).1).2.1 := by
  obtain ⟨herr, hm⟩ := resolvePlugins_ok_inv pd dd os param w m h
  have hw1 : (resolvePlugins pd dd os param w).1 =
      (resolveSweep pd dd os param w).w :=
    (resolvePlugins_proj pd dd os param w).1
  have hor : w.sameOracles (resolveSweep pd dd os param w).w :=
    sameOracles_symm (sweep_world pd dd os param.Plugins ⟨w, [], [], []⟩).1
  have hmemF : ∀ p ∈ param.Plugins, pluginPath pd p.Locator ∈
      (resolveSweep pd dd os param w).w.files :=
    fun p hp => sweep_mem_of_no_errors pd dd os param.Plugins
      ⟨w, [], [], []⟩ herr p hp
  obtain ⟨ha, hb, hc, hev⟩ := sweep_rerun pd dd os param.Plugins
    ⟨w, [], [], []⟩ ⟨(resolveSweep pd dd os param w).w, [], [], []⟩
    hor rfl rfl hmemF herr
  have herr2 : (resolveSweep pd dd os param
      (resolveSweep pd dd os param w).w).pluginErrors = [] :=
    hb.trans herr
  refine ⟨?_, ?_, ?_⟩
  · rw [hw1]
    rw [resolvePlugins_of_no_errors pd dd os param
      (resolveSweep pd dd os param w).w herr2]
    rw [show (resolveSweep pd dd os param
      (resolveSweep pd dd os param w).w).plugins = m from ha.trans hm]
  · rw [hw1,
      (resolvePlugins_proj pd dd os param
        (resolveSweep pd dd os param w).w).1]
    exact hc
  · rw [hw1,
      (resolvePlugins_proj pd dd os param
        (resolveSweep pd dd os param w).w).2]
    intro l
    constructor
    · intro hmem2
      rcases hev _ hmem2 with h2 | h2
      · cases h2
      · exact (h2 l).1 rfl
    · intro hmem2
      rcases hev _ hmem2 with h2 | h2
      · cases h2
      · exact (h2 l).2 rfl

theorem LoadPluginsTasks_proj (pd dd : String) (os : OSArch)
    (param : projectParams) (w : World) :
    (LoadPluginsTasks pd dd os param w).1 =
      (resolvePlugins pd dd os param w).1 ∧
    (LoadPluginsTasks pd dd os param w).2.1 =
      (resolvePlugins pd dd os param w).2.1 := by
  unfold LoadPluginsTasks
  rcases h : resolvePlugins pd dd os param w with ⟨w1, evs, res⟩
  cases res with
  | error e => exact ⟨rfl, rfl⟩
  | ok plugins =>
    constructor
    · show (match verifyPluginCompatibility plugins with
        | some e => (w1, evs, (Except.error e : Except String (List Task)))
        | none =>
          (w1, evs, Except.ok
            ((sortLocators (plugins.map Prod.fst)).flatMap fun loc =>
              ((lookupA plugins loc).getD default).Tasks
                (pluginPath pd loc)))).1 = w1
      cases verifyPluginCompatibility plugins <;> rfl
    · show (match verifyPluginCompatibility plugins with
        | some e => (w1, evs, (Except.error e : Except String (List Task)))
        | none =>
          (w1, evs, Except.ok
            ((sortLocators (plugins.map Prod.fst)).flatMap fun loc =>
              ((lookupA plugins loc).getD default).Tasks
                (pluginPath pd loc)))).2.1 = evs
      cases verifyPluginCompatibility plugins <;> rfl

theorem LoadPluginsTasks_ok_inv (pd dd : String) (os : OSArch)
    (param : projectParams) (w : World) (tasks : List Task)
    (h : (LoadPluginsTasks pd dd os param w).2.2 = .ok tasks) :
    ∃ m : List (locator × Info),
      (resolvePlugins pd dd os param w).2.2 = .ok m ∧
      verifyPluginCompatibility m = none ∧
      tasks = (sortLocators (m.map Prod.fst)).flatMap (fun loc =>
        ((lookupA m loc).getD default).Tasks (pluginPath pd loc)) := by
  unfold LoadPluginsTasks at h
  rcases hrp : resolvePlugins pd dd os param w with ⟨w1, evs, res⟩
  rw [hrp] at h
  cases res with
  | error e =>
    have h2 : (Except.error e : Except String (List Task)) =
        Except.ok tasks := h
    cases h2
  | ok m =>
    cases hv : verifyPluginCompatibility m with
    | some e =>
      have h2 : (match verifyPluginCompatibility m with
        | some e => (w1, evs, (Except.error e : Except String (List Task)))
        | none =>
          (w1, evs, Except.ok
            ((sortLocators (m.map Prod.fst)).flatMap fun loc =>
              ((lookupA m loc).getD default).Tasks
                (pluginPath pd loc)))).2.2 = Except.ok tasks := h
      rw [hv] at h2
      have h3 : (Except.error e : Except String (List Task)) =
          Except.ok tasks := h2
      cases h3
    | none =>
      have h2 : (match verifyPluginCompatibility m with
        | some e => (w1, evs, (Except.error e : Except String (List Task)))
        | none =>
          (w1, evs, Except.ok
            ((sortLocators (m.map Prod.fst)).flatMap fun loc =>
              ((lookupA m loc).getD default).Tasks
                (pluginPath pd loc)))).2.2 = Except.ok tasks := h
      rw [hv] at h2
      have h3 : Except.ok
          ((sortLocators (m.map Prod.fst)).flatMap fun loc =>
            ((lookupA m loc).getD default).Tasks (pluginPath pd loc)) =
          Except.ok tasks := h2
      exact ⟨m, rfl, hv, (Except.ok.inj h3).symm⟩

theorem LoadPluginsTasks_of_ok (pd dd : String) (os : OSArch)
    (param : projectParams) (w : World) (m : List (locator × Info))
    (hres : (resolvePlugins pd dd os param w).2.2 = .ok m)
    (hv : verifyPluginCompatibility m = none) :
    (LoadPluginsTasks pd dd os param w).2.2 =
      .ok ((sortLocators (m.map Prod.fst)).flatMap fun loc =>
        ((lookupA m loc).getD default).Tasks (pluginPath pd loc)) := by
  unfold LoadPluginsTasks
  rcases hrp : resolvePlugins pd dd os param w with ⟨w1, evs, res⟩
  rw [hrp] at hres
  have hres2 : res = .ok m := hres
  subst hres2
  show (match verifyPluginCompatibility m with
    | some e => (w1, evs, (Except.error e : Except String (List Task)))
    | none =>
      (w1, evs, Except.ok
        ((sortLocators (m.map Prod.fst)).flatMap fun loc =>
          ((lookupA m loc).getD default).Tasks (pluginPath pd loc)))).2.2 =
    Except.ok ((sortLocators (m.map Prod.fst)).flatMap fun loc =>
      ((lookupA m loc).getD default).Tasks (pluginPath pd loc))
  rw [hv]

/-- C1 (amended): a second load with unchanged configuration performs
no fetch and no unpack (the install-path existence check short-circuits
them — checksum verification and the info probe do run again), returns
a task list identical to the first run's, and leaves the world
unchanged. -/
theorem rerun_no_fetch_no_unpack_same_tasks (pd dd : String)
    (os : OSArch) (param : projectParams) (w : World) (tasks : List Task)
    (h : (LoadPluginsTasks pd dd os param w).2.2 = .ok tasks) :
    (LoadPluginsTasks pd dd os param
        (LoadPluginsTasks pd dd os param w).1).2.2 = .ok tasks ∧
    (LoadPluginsTasks pd dd os param
        (LoadPluginsTasks pd dd os param w).1).1 =
      (LoadPluginsTasks pd dd os param w).1 ∧
    noTransfer (LoadPluginsTasks pd dd os param
        (LoadPluginsTasks pd dd os param w).1).2.1 := by
  obtain ⟨m, hres, hv, htasks⟩ :=
    LoadPluginsTasks_ok_inv pd dd os param w tasks h
  obtain ⟨hok2, hw2, hnt⟩ := resolve_rerun pd dd os param w m hres
  have hproj1 := LoadPluginsTasks_proj pd dd os param w
  refine ⟨?_, ?_, ?_⟩
  · rw [hproj1.1,
      LoadPluginsTasks_of_ok pd dd os param
        (resolvePlugins pd dd os param w).1 m hok2 hv, ← htasks]
  · rw [hproj1.1,
      (LoadPluginsTasks_proj pd dd os param
        (resolvePlugins pd dd os param w).1).1]
    exact hw2
  · rw [hproj1.1,
      (LoadPluginsTasks_proj pd dd os param
        (resolvePlugins pd dd os param w).1).2]
    exact hnt

/-- Witness for C1 (amended): plugin a with a matching checksum; the
second load returns the identical task list, leaves the world
unchanged and its trace has no fetch and no unpack. -/
theorem rerun_no_fetch_no_unpack_witness :
    (LoadPluginsTasks "/p" "/d" osLinux paramAck
        (LoadPluginsTasks "/p" "/d" osLinux paramAck worldOK).1).2.2 =
      .ok (infoA.Tasks (pluginPath "/p" locA)) ∧
    (LoadPluginsTasks "/p" "/d" osLinux paramAck
        (LoadPluginsTasks "/p" "/d" osLinux paramAck worldOK).1).1 =
      (LoadPluginsTasks "/p" "/d" osLinux paramAck worldOK).1 ∧
    noTransfer (LoadPluginsTasks "/p" "/d" osLinux paramAck
        (LoadPluginsTasks "/p" "/d" osLinux paramAck worldOK).1).2.1 :=
  rerun_no_fetch_no_unpack_same_tasks "/p" "/d" osLinux paramAck worldOK
    (infoA.Tasks (pluginPath "/p" locA)) (by decide)

/-- Counterexample to C1 as stated: for a plugin with a configured
checksum, the second resolution with unchanged configuration returns
the same result but its trace contains a checksum event — the second
run does perform checksum work beyond the existence check. -/
theorem rerun_checksum_counterexample :
    (resolvePlugins "/p" "/d" osLinux paramAck
        (resolvePlugins "/p" "/d" osLinux paramAck worldOK).1).2.2 =
      (resolvePlugins "/p" "/d" osLinux paramAck worldOK).2.2 ∧
    Event.checksum "/p/com.palantir-a-1.0.0" ∈
      (resolvePlugins "/p" "/d" osLinux paramAck
        (resolvePlugins "/p" "/d" osLinux paramAck worldOK).1).2.1 :=
  ⟨by decide, by decide⟩

/-- Witness for C6: plugins a and b (distinct identities) both declare
a task named `lint`; the conflict is recorded from both sides with the
same task name. -/
theorem conflict_reporting_symmetric_witness :
    (lookupA (verifySinglePluginCompatibility locA
        [(locA, infoA), (locB, infoB)]) locB).isSome ∧
    (lookupA (verifySinglePluginCompatibility locB
        [(locA, infoA), (locB, infoB)]) locA).isSome ∧
    ∀ t ns, lookupA (verifySinglePluginCompatibility locA
        [(locA, infoA), (locB, infoB)]) locB =
        some (ConflictErr.conflictingTasks ns) → t ∈ ns →
      ∃ ns2, lookupA (verifySinglePluginCompatibility locB
          [(locA, infoA), (locB, infoB)]) locA =
          some (ConflictErr.conflictingTasks ns2) ∧ t ∈ ns2 :=
  conflict_reporting_symmetric [(locA, infoA), (locB, infoB)] locA locB
    infoA infoB (by decide) (by decide) (by decide) (by decide)
    (Or.inr ⟨"lint", by decide, by decide⟩)

end GodelPlugins
